import Mathlib

/-!
Verification of the DLS_KZJ_LOCOS data-normalization and aggregation layer.

The development shallowly embeds the TypeScript source:

* `src/services/googleSheetService.ts` — `parseGvizData`, `parseDateDDMMYY`,
  `findNormalizedLocoNumberKey`, `transformWDG4Failure` and the pure filtering
  core of `getLocoData`;
* the failures-summary component — `getFinancialYear`, `FY_MONTH_ORDER`,
  `generateFyHeaders`, `sumSummaryTotals`, `processSummary` and the
  eLocos include-predicates of `processedData`.

JavaScript platform primitives used by that code (String.prototype.split,
parseInt, toUpperCase, trim, slice, Number.prototype.toString, Date.UTC and
the UTC getters of Date) are modelled explicitly below; the Date model follows
the ECMAScript specification of MakeDay/TimeClip on the proleptic Gregorian
calendar, with days since the Unix epoch as the time value (the code only ever
constructs midnight-UTC dates, so day granularity is exact).
-/

/-! ## Models of JavaScript string and number primitives -/

/-- Decimal digit test, as used by the parseInt model. -/
def isDigitChar (c : Char) : Bool := 48 ≤ c.toNat && c.toNat ≤ 57

/-- Numeric value of a decimal digit character. -/
def digitVal (c : Char) : Nat := c.toNat - 48

/-- Value of a list of decimal digit characters, most significant first. -/
def natOfDigits (cs : List Char) : Nat := cs.foldl (fun acc c => acc * 10 + digitVal c) 0

/-- Whitespace test for the parseInt/trim models (ASCII whitespace). -/
def jsIsSpace (c : Char) : Bool := c == ' ' || c == '\t' || c == '\n' || c == '\r'

/-- Model of JavaScript parseInt(s, 10): skip leading whitespace, read an
optional sign, then the maximal prefix of decimal digits; NaN (here: none)
when that prefix is empty. -/
def jsParseInt (s : String) : Option Int :=
  let cs := s.data.dropWhile jsIsSpace
  let sign : Int := if cs.head? = some '-' then -1 else 1
  let rest := if cs.head? = some '-' ∨ cs.head? = some '+' then cs.tail else cs
  let digits := rest.takeWhile isDigitChar
  if digits.isEmpty then none
  else some (sign * (natOfDigits digits : Int))

/-- Split of a character list at every character satisfying `p`, keeping empty
pieces — the semantics of String.prototype.split with a character-class
regular expression such as /[-\x2f]/. -/
def splitChars (p : Char → Bool) : List Char → List (List Char)
  | [] => [[]]
  | c :: rest =>
    match splitChars p rest with
    | [] => [[c]]
    | g :: gs => if p c then [] :: g :: gs else (c :: g) :: gs

/-- Model of String.prototype.split on a character class. -/
def jsSplit (p : Char → Bool) (s : String) : List String :=
  (splitChars p s.data).map String.mk

/-- ASCII lower-casing of one character (the sheet data is ASCII). -/
def jsToLowerChar (c : Char) : Char :=
  if 'A' ≤ c ∧ c ≤ 'Z' then Char.ofNat (c.toNat + 32) else c

/-- ASCII upper-casing of one character. -/
def jsToUpperChar (c : Char) : Char :=
  if 'a' ≤ c ∧ c ≤ 'z' then Char.ofNat (c.toNat - 32) else c

/-- Model of String.prototype.toLowerCase. -/
def jsToLowerCase (s : String) : String := String.mk (s.data.map jsToLowerChar)

/-- Model of String.prototype.toUpperCase. -/
def jsToUpperCase (s : String) : String := String.mk (s.data.map jsToUpperChar)

/-- Model of String.prototype.trim: strip whitespace from both ends. -/
def jsTrim (s : String) : String :=
  String.mk (((s.data.dropWhile jsIsSpace).reverse.dropWhile jsIsSpace).reverse)

/-- Test whether the second list starts the first. -/
def startsWithList : List Char → List Char → Bool
  | _, [] => true
  | [], _ :: _ => false
  | a :: as, b :: bs => a == b && startsWithList as bs

/-- Substring occurrence test on character lists. -/
def listContainsSub : List Char → List Char → Bool
  | [], needle => needle.isEmpty
  | c :: rest, needle => startsWithList (c :: rest) needle || listContainsSub rest needle

/-- Model of String.prototype.includes. -/
def jsIncludes (s sub : String) : Bool := listContainsSub s.data sub.data

/-- Digit character of a value below 10. -/
def natDigitChar (n : Nat) : Char := Char.ofNat (48 + n)

/-- Fuel-driven digit expansion; the fuel only has to exceed the argument. -/
def natToDigitsAux : Nat → Nat → List Char
  | 0, n => [natDigitChar n]
  | fuel + 1, n =>
    if n < 10 then [natDigitChar n]
    else natToDigitsAux fuel (n / 10) ++ [natDigitChar (n % 10)]

/-- Decimal digit list of a natural number, most significant first. -/
def natToDigits (n : Nat) : List Char := natToDigitsAux n n

/-- Model of Number.prototype.toString for integral values. -/
def jsIntToString (i : Int) : String :=
  if i < 0 then String.mk ('-' :: natToDigits i.natAbs) else String.mk (natToDigits i.natAbs)

/-- Model of String.prototype.slice(-2): the last two characters (the whole
string when it is shorter). -/
def jsSliceNeg2 (s : String) : String := String.mk (s.data.drop (s.data.length - 2))

/-- Model of the String() coercion applied to a possibly missing property:
JavaScript renders undefined as the string "undefined". -/
def jsStringOfOpt (v : Option String) : String :=
  match v with
  | some s => s
  | none => "undefined"

/-! ## Model of the ECMAScript Date (UTC, day granularity)

`Date.UTC(y, m, d)` normalizes the month into the year (MakeDay), lays out
days on the proleptic Gregorian calendar, and clips the time value to
±8.64e15 ms, i.e. ±100000000 days (TimeClip); an out-of-range value yields an
invalid date whose getters all return NaN, so the re-validation in
`parseDateDDMMYY` necessarily fails on it. The civil-calendar conversions use
the standard era/year-of-era decomposition (era = 400 years = 146097 days). -/

/-- Length of month `m` (1..12) of Gregorian year `y`. -/
def daysInMonth (y m : Int) : Int :=
  if m = 2 then (if y % 4 = 0 ∧ (y % 100 ≠ 0 ∨ y % 400 = 0) then 29 else 28)
  else if m = 4 ∨ m = 6 ∨ m = 9 ∨ m = 11 then 30 else 31

/-- Days since 1970-01-01 of the civil date `(y, m, d)`; `m` in 1..12. -/
def daysFromCivil (y m d : Int) : Int :=
  let y2 := if m ≤ 2 then y - 1 else y
  let era := y2 / 400
  let yoe := y2 - era * 400
  let mp := if m > 2 then m - 3 else m + 9
  let doy := (153 * mp + 2) / 5 + d - 1
  let doe := yoe * 365 + yoe / 4 - yoe / 100 + doy
  era * 146097 + doe - 719468

/-- Civil date `(y, m, d)` (month 1..12) of a count of days since 1970-01-01. -/
def civilFromDays (z0 : Int) : Int × Int × Int :=
  let z := z0 + 719468
  let era := z / 146097
  let doe := z - era * 146097
  let yoe := (doe - doe / 1460 + doe / 36524 - doe / 146096) / 365
  let y := yoe + era * 400
  let doy := doe - (365 * yoe + yoe / 4 - yoe / 100)
  let mp := (5 * doy + 2) / 153
  let d := doy - (153 * mp + 2) / 5 + 1
  let m := if mp < 10 then mp + 3 else mp - 9
  (if m ≤ 2 then y + 1 else y, m, d)

/-- A JavaScript Date holding a finite midnight-UTC time value, counted in
days since the Unix epoch. -/
structure JsDate where
  days : Int
deriving DecidableEq

/-- Model of `new Date(Date.UTC(y, m, d))` with `m` 0-indexed: the two-digit
year rule of Date.UTC, MakeDay month normalization, and TimeClip; none is the
invalid date (all of whose getters return NaN, failing any re-validation). -/
def dateUTC (y m d : Int) : Option JsDate :=
  let yr := if 0 ≤ y ∧ y ≤ 99 then 1900 + y else y
  let ym := yr + m / 12
  let mn := m % 12
  let t := daysFromCivil ym (mn + 1) 1 + (d - 1)
  if t < -100000000 ∨ 100000000 < t then none else some ⟨t⟩

/-- Model of Date.prototype.getUTCFullYear. -/
def JsDate.getUTCFullYear (t : JsDate) : Int := (civilFromDays t.days).1

/-- Model of Date.prototype.getUTCMonth (0-indexed month). -/
def JsDate.getUTCMonth (t : JsDate) : Int := (civilFromDays t.days).2.1 - 1

/-- Model of Date.prototype.getUTCDate (day of month). -/
def JsDate.getUTCDate (t : JsDate) : Int := (civilFromDays t.days).2.2

/-! ## Service layer: the date parser -/

/-- Embedding of parseDateDDMMYY (src/services/googleSheetService.ts, lines
75-100): reject the empty string, split on - or /, require exactly 3 parts,
parseInt each part (NaN gives null), subtract 1 from the month, add 2000 to a
two-digit year, construct a UTC date and re-validate it by comparing the
reconstructed year/month/day with the inputs. -/
def parseDateDDMMYY (dateString : String) : Option JsDate :=
  if dateString = "" then none
  else
    match jsSplit (fun c => c == '-' || c == '/') dateString with
    | [p0, p1, p2] =>
      match jsParseInt p0, jsParseInt p1, jsParseInt p2 with
      | some day, some month1, some year0 =>
        let month := month1 - 1
        let year := if year0 < 100 then year0 + 2000 else year0
        match dateUTC year month day with
        | none => none
        | some date =>
          if date.getUTCFullYear ≠ year ∨ date.getUTCMonth ≠ month ∨ date.getUTCDate ≠ day
          then none
          else some date
      | _, _, _ => none
    | _ => none

/-! ## Service layer: Gviz record parsing and the loco join -/

/-- Wire-format cell values (the JSON payloads carry strings, numbers and
booleans in `v`). -/
inductive JsVal where
  | str : String → JsVal
  | num : Int → JsVal
  | boolean : Bool → JsVal
deriving DecidableEq

/-- Model of the String() coercion on a raw cell value. -/
def jsValToString : JsVal → String
  | .str s => s
  | .num n => jsIntToString n
  | .boolean b => if b then "true" else "false"

/-- Wire-format Gviz cell: optional raw value `v`, optional formatted `f`.
A whole-cell `none` stands for a null cell in the row array. -/
structure GvizCell where
  v : Option JsVal
  f : Option String
deriving DecidableEq

/-- Lower-case alphanumeric test (the target class of the header normalizer). -/
def isLowerAlphaNum (c : Char) : Bool :=
  (97 ≤ c.toNat && c.toNat ≤ 122) || (48 ≤ c.toNat && c.toNat ≤ 57)

/-- Header normalization from parseGvizData (line 38): lower-case, strip
whitespace, then strip everything outside [a-z0-9]. -/
def normalizeKey (label : String) : String :=
  String.mk ((((jsToLowerCase label).data.filter (fun c => !(jsIsSpace c))).filter
    isLowerAlphaNum))

/-- Key of one column (parseGvizData lines 34-42): a null column or an absent
or empty label yields the empty key; otherwise the normalized or the raw
label. A column is modelled as `Option String`, `none` for a null column or a
column without a label. -/
def colKey (normalizeKeys : Bool) (col : Option String) : String :=
  match col with
  | none => ""
  | some l => if l = "" then "" else (if normalizeKeys then normalizeKey l else l)

/-- Per-cell value resolution (parseGvizData lines 49-64, the `v` fallback). -/
def resolveCellV (v : Option JsVal) : String :=
  match v with
  | some jv => jsValToString jv
  | none => ""

/-- Per-cell value resolution (parseGvizData lines 49-64): a null cell gives
the empty string; a present, non-empty `f` (the only truthy case of `cell.f`)
wins; otherwise a present `v` is coerced to string; otherwise empty. -/
def resolveCell (cell : Option GvizCell) : String :=
  match cell with
  | none => ""
  | some c =>
    match c.f with
    | some fv => if fv = "" then resolveCellV c.v else fv
    | none => resolveCellV c.v

/-- JavaScript object assignment on a string-keyed record: overwrite in place
when the key exists, else append. -/
def objSet (o : List (String × String)) (k v : String) : List (String × String) :=
  if o.any (fun p => p.1 == k) then
    o.map (fun p => if p.1 == k then (k, v) else p)
  else o ++ [(k, v)]

/-- Row construction of parseGvizData (lines 44-67): walk the columns with
their indices, skip empty keys, assign the resolved cell value. An index
beyond the row array is treated as a null cell. -/
def buildRow (keys : List String) (row : List (Option GvizCell)) : List (String × String) :=
  keys.enum.foldl (fun acc p =>
    if p.2 = "" then acc
    else objSet acc p.2 (resolveCell ((row.get? p.1).getD none))) []

/-- Embedding of the row-mapping core of parseGvizData (lines 34-67). -/
def parseGvizTable (cols : List (Option String)) (rows : List (List (Option GvizCell)))
    (normalizeKeys : Bool) : List (List (String × String)) :=
  rows.map (buildRow (cols.map (colKey normalizeKeys)))

/-- Property read on a parsed record, JavaScript obj[key]. -/
def recGet (r : List (String × String)) (k : String) : Option String :=
  (r.find? (fun p => p.1 == k)).map (fun p => p.2)

/-- Embedding of findNormalizedLocoNumberKey (googleSheetService.ts lines
134-142): check the key set for locono, then loconumber, then loco. -/
def findNormalizedLocoNumberKey (r : List (String × String)) : Option String :=
  let keys := r.map (fun p => p.1)
  if keys.contains "locono" then some "locono"
  else if keys.contains "loconumber" then some "loconumber"
  else if keys.contains "loco" then some "loco"
  else none

/-- Canonical failure record (types.ts TractionFailure together with the
fields produced by transformWDG4Failure). -/
structure TractionFailure where
  datefailed : String := ""
  locono : String := ""
  muwith : String := ""
  icmsmessage : String := ""
  div : String := ""
  rly : String := ""
  briefmessage : String := ""
  causeoffailure : String := ""
  equipment : String := ""
  component : String := ""
  responsibility : String := ""
  elocosaf : String := ""
  icms : String := ""
  documentlink : String := ""
  medialink : String := ""
  trainno : String := ""
  load : String := ""
  station : String := ""
  schparticulars : String := ""
deriving DecidableEq

/-- Embedding of transformWDG4Failure (googleSheetService.ts lines 149-172). -/
def transformWDG4Failure (raw : List (String × String)) : TractionFailure :=
  let locoKey := findNormalizedLocoNumberKey raw
  { datefailed := (recGet raw "dateoffailure").getD ""
    locono := match locoKey with
      | some k => (recGet raw k).getD ""
      | none => ""
    muwith := (recGet raw "muwith").getD ""
    icmsmessage := (recGet raw "messageicms").getD ""
    div := (recGet raw "faileddivn").getD ""
    rly := (recGet raw "failedrly").getD ""
    briefmessage := (recGet raw "briefcause").getD ""
    causeoffailure := (recGet raw "shedinvestigation").getD ""
    equipment := (recGet raw "system").getD ""
    component := (recGet raw "componentfailed").getD ""
    responsibility := (recGet raw "shedsection").getD ""
    elocosaf := ""
    icms := (recGet raw "icms").getD ""
    documentlink := (recGet raw "documentlink").getD ""
    medialink := (recGet raw "medialink").getD ""
    trainno := (recGet raw "trainno").getD ""
    load := (recGet raw "load").getD ""
    station := (recGet raw "station").getD ""
    schparticulars := (recGet raw "schparticulars").getD "" }

/-- Per-record vehicle-id comparison used by the getLocoData filters
(googleSheetService.ts lines 279, 284, 289, 303, 308): the stored value is
String()-coerced and upper-cased; the query side was trimmed and upper-cased
once, on entry to getLocoData (line 235). -/
def locoRecordMatches (stored : Option String) (normalizedLocoNo : String) : Bool :=
  jsToUpperCase (jsStringOfOpt stored) == normalizedLocoNo

/-- Per-table filtering core of getLocoData (googleSheetService.ts lines
282-285 and 306-309): detect the key column on the first record; no key
column means an empty result, not an error. -/
def filterTableByLoco (records : List (List (String × String)))
    (normalizedLocoNo : String) : List (List (String × String)) :=
  match records.head? with
  | none => []
  | some first =>
    match findNormalizedLocoNumberKey first with
    | some key => records.filter (fun r => locoRecordMatches (recGet r key) normalizedLocoNo)
    | none => []

/-- The failures getLocoData returns for a query, including the query-side
normalization of line 235. -/
def getLocoFailuresFor (locoNo : String)
    (allFailures : List (List (String × String))) : List (List (String × String)) :=
  filterTableByLoco allFailures (jsToUpperCase (jsTrim locoNo))

/-! ## Failures-summary component (the first unit of part_004) -/

/-- Aggregation cell: a count plus the drill-down list (MonthlyCell). -/
structure MonthlyCell where
  count : Nat
  items : List TractionFailure
deriving DecidableEq

/-- One row of a summary table. -/
structure SummaryRow where
  name : String
  monthlyData : List MonthlyCell
  total : MonthlyCell
deriving DecidableEq

/-- The Omit name-less row shape used for grand totals and merged totals. -/
structure SummaryTotals where
  monthlyData : List MonthlyCell
  total : MonthlyCell
deriving DecidableEq

/-- A full summary table (SummaryData). -/
structure SummaryData where
  title : String
  groupTitle : String
  headers : List String
  rows : List SummaryRow
  totals : SummaryTotals
deriving DecidableEq

/-- Embedding of getFinancialYear (part_004 lines 19-23). -/
def getFinancialYear (date : JsDate) : String :=
  let year := date.getUTCFullYear
  let month := date.getUTCMonth
  if month ≥ 3 then jsIntToString year ++ "-" ++ jsSliceNeg2 (jsIntToString (year + 1))
  else jsIntToString (year - 1) ++ "-" ++ jsSliceNeg2 (jsIntToString year)

/-- Embedding of FY_MONTH_ORDER (part_004 line 25): April (3) to March (2). -/
def FY_MONTH_ORDER : List Int := [3, 4, 5, 6, 7, 8, 9, 10, 11, 0, 1, 2]

/-- Month display names of generateFyHeaders. -/
def monthNames : List String :=
  ["Jan", "Feb", "Mar", "Apr", "May", "Jun", "Jul", "Aug", "Sep", "Oct", "Nov", "Dec"]

/-- Year suffix of one header; a NaN start year renders as slice(-2) of the
string NaN. -/
def fyHeaderYearString (startYear : Option Int) (monthIndex : Int) : String :=
  match startYear with
  | some n => jsSliceNeg2 (jsIntToString (if monthIndex ≥ 3 then n else n + 1))
  | none => "aN"

/-- Embedding of generateFyHeaders (part_004 lines 27-34). -/
def generateFyHeaders (fy : String) : List String :=
  FY_MONTH_ORDER.map (fun monthIndex =>
    (monthNames.getD monthIndex.toNat "") ++ String.mk ['\''] ++
      fyHeaderYearString (jsParseInt (String.mk (fy.data.take 4))) monthIndex)

/-- The twelve fresh empty cells (Array(12).fill(null).map of processSummary). -/
def emptyMonthCells : List MonthlyCell := List.replicate 12 ⟨0, []⟩

/-- Increment count and push one record at cell index `i` (the two ++ lines of
processSummary); an out-of-range index leaves the list unchanged (unreachable
under the guard). -/
def bumpCellList (cells : List MonthlyCell) (i : Nat) (f : TractionFailure) :
    List MonthlyCell :=
  match cells.get? i with
  | some cell => cells.set i ⟨cell.count + 1, cell.items ++ [f]⟩
  | none => cells

/-- Membership test of the insertion-ordered rows map. -/
def rowsMapHas (m : List (String × List MonthlyCell)) (k : String) : Bool :=
  m.any (fun p => p.1 == k)

/-- In-place update of one group entry of the rows map. -/
def rowsMapUpdate (m : List (String × List MonthlyCell)) (k : String) (i : Nat)
    (f : TractionFailure) : List (String × List MonthlyCell) :=
  m.map (fun p => if p.1 == k then (p.1, bumpCellList p.2 i f) else p)

/-- One iteration of the forEach of processSummary (part_004 lines 77-98):
ensure the group row exists, parse the date (skipping the record if invalid),
locate the FY slot, and bump the group cell and the grand-total cell.
JavaScript indexOf signals absence with -1; List.indexOf signals it with the
list length, so the `!== -1` guard is `< length` here. -/
def processStep (groupOf : TractionFailure → String)
    (st : List (String × List MonthlyCell) × List MonthlyCell) (f : TractionFailure) :
    List (String × List MonthlyCell) × List MonthlyCell :=
  let groupName := if groupOf f = "" then "Uncategorized" else groupOf f
  let rows1 := if rowsMapHas st.1 groupName then st.1 else st.1 ++ [(groupName, emptyMonthCells)]
  match parseDateDDMMYY f.datefailed with
  | none => (rows1, st.2)
  | some date =>
    let monthIndexInFy := FY_MONTH_ORDER.indexOf date.getUTCMonth
    if monthIndexInFy < FY_MONTH_ORDER.length then
      (rowsMapUpdate rows1 groupName monthIndexInFy f, bumpCellList st.2 monthIndexInFy f)
    else (rows1, st.2)

/-- The row-total reduce of processSummary (lines 102-109 and 114-121). -/
def sumCellsTotal (cells : List MonthlyCell) : MonthlyCell :=
  cells.foldl (fun acc mc => ⟨acc.count + mc.count, acc.items ++ mc.items⟩) ⟨0, []⟩

/-- Embedding of processSummary (part_004 lines 63-124). The final sort by
localeCompare is modelled as a lexicographic merge sort on the group name; the
sort only permutes rows. -/
def processSummary (failures : List TractionFailure) (fy title groupTitle : String)
    (filterFn : TractionFailure → Bool) (groupOf : TractionFailure → String) :
    SummaryData :=
  let headers := generateFyHeaders fy
  let st := (failures.filter filterFn).foldl (processStep groupOf) ([], emptyMonthCells)
  let rows := (st.1.map (fun p => SummaryRow.mk p.1 p.2 (sumCellsTotal p.2))).mergeSort
    (fun a b => decide (a.name ≤ b.name))
  ⟨title, groupTitle, headers, rows, ⟨st.2, sumCellsTotal st.2⟩⟩

/-- The all-zero totals shape used by sumSummaryTotals for null arguments. -/
def emptySummaryTotal : SummaryTotals := ⟨List.replicate 12 ⟨0, []⟩, ⟨0, []⟩⟩

/-- Embedding of sumSummaryTotals (part_004 lines 36-61, identical in
part_005 lines 87-112): cell-wise count addition and member concatenation,
walking the cells of the first operand and defaulting a missing cell of the
second operand to an empty cell; Option models the null-guard of lines 41-42. -/
def sumSummaryTotals (total1 total2 : Option SummaryTotals) : SummaryTotals :=
  let t1 := total1.getD emptySummaryTotal
  let t2 := total2.getD emptySummaryTotal
  let combinedMonthlyData := t1.monthlyData.enum.map (fun p =>
    let otherCell := (t2.monthlyData.get? p.1).getD ⟨0, []⟩
    MonthlyCell.mk (p.2.count + otherCell.count) (p.2.items ++ otherCell.items))
  ⟨combinedMonthlyData, ⟨t1.total.count + t2.total.count, t1.total.items ++ t2.total.items⟩⟩

/-- The eLocos Y-LOCO include-predicate (part_004 line 373). -/
def predYLoco (f : TractionFailure) : Bool := jsIncludes (jsToUpperCase f.elocosaf) "Y-LOCO"

/-- The eLocos Y-OTH include-predicate (part_004 line 374). -/
def predYOth (f : TractionFailure) : Bool := jsIncludes (jsToUpperCase f.elocosaf) "Y-OTH"

/-- The eLocos punctuality include-predicate (part_004 line 378). -/
def predPunc (f : TractionFailure) : Bool := jsIncludes (jsToUpperCase f.elocosaf) "PUNC"

/-! ## Invariants of the aggregation state -/

/-- Count stored at cell index `i` (0 when out of range). -/
def colCount (cells : List MonthlyCell) (i : Nat) : Nat :=
  ((cells.get? i).getD ⟨0, []⟩).count

/-- Invariant carried through the forEach fold of processSummary: unique group
keys, 12 cells per group and in the grand-total list, count = member-list
length with all members satisfying `P`, and each grand-total slot holding the
column sum of the group slots. -/
def summaryStateInv (P : TractionFailure → Prop)
    (st : List (String × List MonthlyCell) × List MonthlyCell) : Prop :=
  (st.1.map (fun p => p.1)).Nodup ∧
  (∀ p ∈ st.1, p.2.length = 12) ∧
  st.2.length = 12 ∧
  (∀ p ∈ st.1, ∀ c ∈ p.2, c.count = c.items.length ∧ ∀ f ∈ c.items, P f) ∧
  (∀ c ∈ st.2, c.count = c.items.length ∧ ∀ f ∈ c.items, P f) ∧
  (∀ i, i < 12 → colCount st.2 i = (st.1.map (fun p => colCount p.2 i)).sum)

/-- Spec-side rendering for claim C8: a value reduced modulo 100 written as
two decimal digits, as the formula year-suffix of the spec reads. -/
def pad2 (m : Int) : String :=
  String.mk [natDigitChar (m.toNat / 10), natDigitChar (m.toNat % 10)]

/-- Spec-side financial-year formula of claim C8: month at least April gives
the year and the successor year modulo 100; earlier months give the previous
year and the year modulo 100. -/
def specFyLabel (year month : Int) : String :=
  if month ≥ 3 then jsIntToString year ++ "-" ++ pad2 ((year + 1) % 100)
  else jsIntToString (year - 1) ++ "-" ++ pad2 (year % 100)

theorem natToDigitsAux_irrel (f1 : Nat) : ∀ f2 n : Nat, n ≤ f1 → n ≤ f2 →
    natToDigitsAux f1 n = natToDigitsAux f2 n := by
  induction f1 with
  | zero =>
    intro f2 n h1 _
    have hn : n = 0 := by omega
    subst hn
    cases f2 <;> simp [natToDigitsAux]
  | succ g ih =>
    intro f2 n h1 h2
    match f2 with
    | 0 =>
      have hn : n = 0 := by omega
      subst hn
      simp [natToDigitsAux]
    | g2 + 1 =>
      simp only [natToDigitsAux]
      by_cases h : n < 10
      · simp [h]
      · simp only [h, if_false]
        rw [ih g2 (n / 10) (by omega) (by omega)]

theorem natToDigits_step (n : Nat) (h : 10 ≤ n) :
    natToDigits n = natToDigits (n / 10) ++ [natDigitChar (n % 10)] := by
  obtain ⟨g, rfl⟩ : ∃ g, n = g + 1 := ⟨n - 1, by omega⟩
  show natToDigitsAux (g + 1) (g + 1) = _
  simp only [natToDigitsAux]
  rw [if_neg (by omega)]
  unfold natToDigits
  rw [natToDigitsAux_irrel g ((g + 1) / 10) ((g + 1) / 10) (by omega) (by omega)]

example : civilFromDays 0 = (1970, 1, 1) := by decide

example : daysFromCivil 1970 1 1 = 0 := by decide

example : civilFromDays (daysFromCivil 2024 2 29) = (2024, 2, 29) := by decide

example : civilFromDays (daysFromCivil 2024 4 31) = (2024, 5, 1) := by decide

example : jsParseInt "12x" = some 12 := by decide

example : jsParseInt "x" = none := by decide

example : jsSplit (fun c => c == '-' || c == '/') "15-03-24" = ["15", "03", "24"] := by decide

example : jsIntToString (-45) = "-45" := by decide

example : jsSliceNeg2 (jsIntToString 2025) = "25" := by decide

example : jsIncludes "" "Y-LOCO" = false := by decide

example : jsTrim "  ab c " = "ab c" := by decide

example : jsToUpperCase "aZb9" = "AZB9" := by decide

/-! ## Correctness of the civil-calendar conversions

The key facts: `civilFromDays` is a left inverse of `daysFromCivil` on valid
dates, and adding a month length to the day component shifts `daysFromCivil`
to the next month. Era arithmetic is handled through the three quotient
lemmas below (year-of-era `yoe` in 0..399, day-of-year `doy` in 0..365, with
day 365 only in leap years of the era). -/

theorem doe_div_1460 (yoe doy : Int) (h1 : 0 ≤ yoe) (h2 : yoe ≤ 399) (h3 : 0 ≤ doy)
    (h4 : doy ≤ 364 + (if (yoe + 1) % 4 = 0 ∧ ((yoe + 1) % 100 ≠ 0 ∨ (yoe + 1) % 400 = 0) then 1 else 0)) :
    (yoe * 365 + yoe / 4 - yoe / 100 + doy) / 1460 =
      yoe / 4 + (if yoe % 4 = 3 ∧ 365 ≤ yoe / 4 - yoe / 100 + doy then 1 else 0) := by
  split_ifs at * <;> omega

theorem doe_div_146096 (yoe doy : Int) (h1 : 0 ≤ yoe) (h2 : yoe ≤ 399) (h3 : 0 ≤ doy)
    (h4 : doy ≤ 364 + (if (yoe + 1) % 4 = 0 ∧ ((yoe + 1) % 100 ≠ 0 ∨ (yoe + 1) % 400 = 0) then 1 else 0)) :
    (yoe * 365 + yoe / 4 - yoe / 100 + doy) / 146096 =
      (if yoe = 399 ∧ doy = 365 then 1 else 0) := by
  split_ifs at * <;> omega

theorem doe_div_36524_aux (c s doy : Int) (hc1 : 0 ≤ c) (hc2 : c ≤ 3)
    (hs1 : 0 ≤ s) (hs2 : s ≤ 99) (h3 : 0 ≤ doy)
    (h4 : doy ≤ 364 + (if (100 * c + s + 1) % 4 = 0 ∧ ((100 * c + s + 1) % 100 ≠ 0 ∨ (100 * c + s + 1) % 400 = 0) then 1 else 0))
    (hnb : ¬(100 * c + s = 399 ∧ doy = 365)) :
    (36524 * c + (365 * s + s / 4 + doy)) / 36524 = c := by
  have htail : 365 * s + s / 4 + doy ≤ 36523 := by
    by_cases hs : s = 99
    · subst hs
      split_ifs at h4 with hL
      · omega
      · omega
    · split_ifs at h4 <;> omega
  omega

theorem doe_div_36524 (yoe doy : Int) (h1 : 0 ≤ yoe) (h2 : yoe ≤ 399) (h3 : 0 ≤ doy)
    (h4 : doy ≤ 364 + (if (yoe + 1) % 4 = 0 ∧ ((yoe + 1) % 100 ≠ 0 ∨ (yoe + 1) % 400 = 0) then 1 else 0)) :
    (yoe * 365 + yoe / 4 - yoe / 100 + doy) / 36524 =
      yoe / 100 + (if yoe = 399 ∧ doy = 365 then 1 else 0) := by
  by_cases hb : yoe = 399 ∧ doy = 365
  · rw [if_pos hb]
    obtain ⟨hy, hdoy⟩ := hb
    subst hy hdoy
    omega
  · rw [if_neg hb]
    have hrw : (100 * (yoe / 100) + yoe % 100 : Int) = yoe := by omega
    have key := doe_div_36524_aux (yoe / 100) (yoe % 100) doy (by omega) (by omega)
      (by omega) (by omega) h3 (by rw [hrw]; exact h4) (by rw [hrw]; exact hb)
    have hq : yoe / 4 = 25 * (yoe / 100) + (yoe % 100) / 4 := by omega
    omega

theorem yoe_recover (yoe doy : Int) (h1 : 0 ≤ yoe) (h2 : yoe ≤ 399) (h3 : 0 ≤ doy)
    (h4 : doy ≤ 364 + (if (yoe + 1) % 4 = 0 ∧ ((yoe + 1) % 100 ≠ 0 ∨ (yoe + 1) % 400 = 0) then 1 else 0)) :
    ((yoe * 365 + yoe / 4 - yoe / 100 + doy) - (yoe * 365 + yoe / 4 - yoe / 100 + doy) / 1460
      + (yoe * 365 + yoe / 4 - yoe / 100 + doy) / 36524
      - (yoe * 365 + yoe / 4 - yoe / 100 + doy) / 146096) / 365 = yoe := by
  have d1 := doe_div_1460 yoe doy h1 h2 h3 h4
  have d2 := doe_div_36524 yoe doy h1 h2 h3 h4
  have d3 := doe_div_146096 yoe doy h1 h2 h3 h4
  split_ifs at d1 d2 d3 h4 <;> omega

set_option maxHeartbeats 1000000 in

theorem month_recover (y era yoe m d : Int) (hm1 : 1 ≤ m) (hm2 : m ≤ 12)
    (hd1 : 1 ≤ d) (hd2 : d ≤ daysInMonth y m)
    (hy : y = (if m ≤ 2 then era * 400 + yoe + 1 else era * 400 + yoe))
    (hyoe1 : 0 ≤ yoe) (hyoe2 : yoe ≤ 399) :
    0 ≤ (153 * (if 2 < m then m - 3 else m + 9) + 2) / 5 + d - 1 ∧
    (153 * (if 2 < m then m - 3 else m + 9) + 2) / 5 + d - 1 ≤ 365 ∧
    (153 * (if 2 < m then m - 3 else m + 9) + 2) / 5 + d - 1 ≤
      364 + (if (yoe + 1) % 4 = 0 ∧ ((yoe + 1) % 100 ≠ 0 ∨ (yoe + 1) % 400 = 0) then 1 else 0) ∧
    (5 * ((153 * (if 2 < m then m - 3 else m + 9) + 2) / 5 + d - 1) + 2) / 153 =
      (if 2 < m then m - 3 else m + 9) := by
  simp only [daysInMonth] at hd2
  interval_cases m <;> split_ifs at * <;> omega

set_option maxHeartbeats 1000000 in

theorem civil_roundtrip (y m d : Int) (hm1 : 1 ≤ m) (hm2 : m ≤ 12)
    (hd1 : 1 ≤ d) (hd2 : d ≤ daysInMonth y m) :
    civilFromDays (daysFromCivil y m d) = (y, m, d) := by
  set y2 := (if m ≤ 2 then y - 1 else y) with hy2
  set era := y2 / 400 with hera
  set yoe := y2 - era * 400 with hyoe
  set mp := (if 2 < m then m - 3 else m + 9) with hmp
  set doy := ((153 * mp + 2) / 5 + d - 1) with hdoy
  set doe := (yoe * 365 + yoe / 4 - yoe / 100 + doy) with hdoe
  have hyoeB1 : 0 ≤ yoe := by omega
  have hyoeB2 : yoe ≤ 399 := by omega
  have hmr := month_recover y era yoe m d hm1 hm2 hd1 hd2
    (by split_ifs at hera hyoe ⊢ <;> omega) hyoeB1 hyoeB2
  rw [← hmp, ← hdoy] at hmr
  obtain ⟨hdoy0, hdoy365, hdoyU, hmprec⟩ := hmr
  have hrec := yoe_recover yoe doy hyoeB1 hyoeB2 hdoy0 hdoyU
  rw [← hdoe] at hrec
  have hdfc : daysFromCivil y m d = era * 146097 + doe - 719468 := rfl
  have hdoeB1 : 0 ≤ doe := by omega
  have hdoeB2 : doe ≤ 146096 := by omega
  have herarec : (era * 146097 + doe) / 146097 = era := by omega
  simp only [civilFromDays, Prod.mk.injEq]
  rw [hdfc]
  have hz : era * 146097 + doe - 719468 + 719468 = era * 146097 + doe := by ring
  rw [hz, herarec]
  have hdoe2 : era * 146097 + doe - era * 146097 = doe := by ring
  rw [hdoe2, hrec]
  have hdoyrec : doe - (365 * yoe + yoe / 4 - yoe / 100) = doy := by omega
  rw [hdoyrec, hmprec]
  refine ⟨?_, ?_, ?_⟩
  · split_ifs <;> omega
  · split_ifs <;> omega
  · omega

set_option maxHeartbeats 1000000 in

theorem dfc_shiftStep (y m d : Int) (hm1 : 1 ≤ m) (hm2 : m ≤ 11) :
    daysFromCivil y m d = daysFromCivil y (m + 1) (d - daysInMonth y m) := by
  interval_cases m <;>
    (simp only [daysFromCivil, daysInMonth]; norm_num;
      all_goals first | (split_ifs <;> omega) | omega)

theorem dfc_shift12 (y d : Int) :
    daysFromCivil y 12 d = daysFromCivil (y + 1) 1 (d - 31) := by
  simp only [daysFromCivil]
  norm_num
  omega

theorem daysInMonth_bounds (y m : Int) : 28 ≤ daysInMonth y m ∧ daysInMonth y m ≤ 31 := by
  simp only [daysInMonth]
  split_ifs <;> omega

theorem civil_roll (k : Nat) : ∀ y m d : Int, d.toNat ≤ k → 1 ≤ m → m ≤ 12 →
    daysInMonth y m < d → d ≤ 99 →
    ∃ j y3 m3 d3 : Int, 1 ≤ j ∧ j ≤ 3 ∧
      daysFromCivil y m d = daysFromCivil y3 m3 d3 ∧
      1 ≤ m3 ∧ m3 ≤ 12 ∧ 1 ≤ d3 ∧ d3 ≤ daysInMonth y3 m3 ∧ d3 ≤ d - 28 * j ∧
      ((m3 = m + j ∧ y3 = y) ∨ (m3 = m + j - 12 ∧ y3 = y + 1)) := by
  induction k with
  | zero =>
    intro y m d hk hm1 hm2 hd hd99
    have hb := daysInMonth_bounds y m
    omega
  | succ k ih =>
    intro y m d hk hm1 hm2 hd hd99
    have hb := daysInMonth_bounds y m
    by_cases hm12 : m = 12
    · subst hm12
      have hL12 : daysInMonth y 12 = 31 := by simp [daysInMonth]
      have hsh := dfc_shift12 y d
      have hb2 := daysInMonth_bounds (y + 1) 1
      by_cases hv : d - 31 ≤ daysInMonth (y + 1) 1
      · exact ⟨1, y + 1, 1, d - 31, by omega, by omega, by rw [hsh], by omega, by omega,
          by omega, hv, by omega, Or.inr ⟨by omega, rfl⟩⟩
      · obtain ⟨j, y3, m3, d3, hj1, hj3, heq, hm31, hm32, hd31, hd32, hd33, hdisj⟩ :=
          ih (y + 1) 1 (d - 31) (by omega) (by omega) (by omega) (by omega) (by omega)
        refine ⟨j + 1, y3, m3, d3, by omega, by omega, by rw [hsh, heq], hm31, hm32,
          hd31, hd32, by omega, ?_⟩
        rcases hdisj with ⟨h1, h2⟩ | ⟨h1, h2⟩
        · exact Or.inr ⟨by omega, h2⟩
        · exact absurd hm31 (by omega)
    · have hsh := dfc_shiftStep y m d hm1 (by omega)
      have hb2 := daysInMonth_bounds y (m + 1)
      by_cases hv : d - daysInMonth y m ≤ daysInMonth y (m + 1)
      · exact ⟨1, y, m + 1, d - daysInMonth y m, by omega, by omega, hsh, by omega,
          by omega, by omega, hv, by omega, Or.inl ⟨by omega, rfl⟩⟩
      · obtain ⟨j, y3, m3, d3, hj1, hj3, heq, hm31, hm32, hd31, hd32, hd33, hdisj⟩ :=
          ih y (m + 1) (d - daysInMonth y m) (by omega) (by omega) (by omega) (by omega)
            (by omega)
        refine ⟨j + 1, y3, m3, d3, by omega, by omega, by rw [hsh, heq], hm31, hm32,
          hd31, hd32, by omega, ?_⟩
        rcases hdisj with ⟨h1, h2⟩ | ⟨h1, h2⟩
        · exact Or.inl ⟨by omega, h2⟩
        · exact Or.inr ⟨by omega, by omega⟩

theorem civil_reject (y m d : Int) (hm1 : 1 ≤ m) (hm2 : m ≤ 12)
    (hd : daysInMonth y m < d) (hd99 : d ≤ 99) :
    civilFromDays (daysFromCivil y m d) ≠ (y, m, d) := by
  obtain ⟨j, y3, m3, d3, hj1, hj3, heq, hm31, hm32, hd31, hd32, hd33, hdisj⟩ :=
    civil_roll d.toNat y m d le_rfl hm1 hm2 hd hd99
  rw [heq, civil_roundtrip y3 m3 d3 hm31 hm32 hd31 hd32]
  intro hcontra
  rw [Prod.mk.injEq, Prod.mk.injEq] at hcontra
  obtain ⟨hy, hm, hdd⟩ := hcontra
  rcases hdisj with ⟨h1, h2⟩ | ⟨h1, h2⟩ <;> omega

theorem civil_reject_zero (y m : Int) (hm1 : 1 ≤ m) (hm2 : m ≤ 12) :
    civilFromDays (daysFromCivil y m 0) ≠ (y, m, 0) := by
  have hb2 := daysInMonth_bounds y (m - 1)
  by_cases hm1e : m = 1
  · subst hm1e
    have hsh := dfc_shift12 (y - 1) 31
    have h31 : daysInMonth (y - 1) 12 = 31 := by simp [daysInMonth]
    have heq : daysFromCivil y 1 0 = daysFromCivil (y - 1) 12 31 := by
      rw [hsh]; norm_num
    rw [heq, civil_roundtrip (y - 1) 12 31 (by omega) (by omega) (by omega) (by omega)]
    intro hcontra
    rw [Prod.mk.injEq, Prod.mk.injEq] at hcontra
    omega
  · have hsh := dfc_shiftStep y (m - 1) (daysInMonth y (m - 1)) (by omega) (by omega)
    have heq : daysFromCivil y m 0 = daysFromCivil y (m - 1) (daysInMonth y (m - 1)) := by
      rw [hsh]; norm_num
    rw [heq, civil_roundtrip y (m - 1) (daysInMonth y (m - 1)) (by omega) (by omega)
      (by omega) (by omega)]
    intro hcontra
    rw [Prod.mk.injEq, Prod.mk.injEq] at hcontra
    omega

/-! ## String-level parsing lemmas -/

theorem digit_char_facts (c : Char) (h : isDigitChar c = true) :
    jsIsSpace c = false ∧ (c == '-' || c == '/') = false ∧
    ¬(c = '-') ∧ ¬(c = '+') := by
  simp only [isDigitChar, Bool.and_eq_true, decide_eq_true_eq] at h
  refine ⟨?_, ?_, fun hc => ?_, fun hc => ?_⟩
  · simp only [jsIsSpace, Bool.or_eq_false_iff, beq_eq_false_iff_ne, ne_eq]
    refine ⟨⟨⟨fun hc => ?_, fun hc => ?_⟩, fun hc => ?_⟩, fun hc => ?_⟩ <;>
      (subst hc; revert h; decide)
  · simp only [Bool.or_eq_false_iff, beq_eq_false_iff_ne, ne_eq]
    refine ⟨fun hc => ?_, fun hc => ?_⟩ <;> (subst hc; revert h; decide)
  · subst hc; revert h; decide
  · subst hc; revert h; decide

theorem takeWhile_all (p : Char → Bool) (l : List Char) (h : ∀ c ∈ l, p c = true) :
    l.takeWhile p = l := by
  induction l with
  | nil => rfl
  | cons x xs ih =>
    simp only [List.takeWhile_cons, h x (List.mem_cons_self x xs), if_true]
    rw [ih (fun c hc => h c (List.mem_cons_of_mem x hc))]

theorem natOfDigits_append (l : List Char) (c : Char) :
    natOfDigits (l ++ [c]) = natOfDigits l * 10 + digitVal c := by
  simp [natOfDigits, List.foldl_append]

theorem natOfDigits_lt (l : List Char) (hd : ∀ c ∈ l, isDigitChar c = true) :
    natOfDigits l < 10 ^ l.length := by
  induction l using List.reverseRecOn with
  | nil => simp [natOfDigits]
  | append_singleton xs c ih =>
    have hdig := hd c (by simp)
    have hc9 : digitVal c ≤ 9 := by
      simp only [isDigitChar, Bool.and_eq_true, decide_eq_true_eq] at hdig
      simp only [digitVal]
      omega
    have hih := ih (fun x hx => hd x (by simp [hx]))
    rw [natOfDigits_append]
    have hlen : (xs ++ [c]).length = xs.length + 1 := by simp
    rw [hlen]
    have hp : (10 : Nat) ^ (xs.length + 1) = 10 ^ xs.length * 10 := by ring
    omega

theorem splitChars_ne_nil (p : Char → Bool) (l : List Char) : splitChars p l ≠ [] := by
  cases l with
  | nil => simp [splitChars]
  | cons c rest =>
    simp only [splitChars]
    rcases h : splitChars p rest with _ | ⟨g, gs⟩
    · simp
    · split_ifs <;> simp

theorem splitChars_sepFree (p : Char → Bool) (l : List Char)
    (h : ∀ c ∈ l, p c = false) : splitChars p l = [l] := by
  induction l with
  | nil => rfl
  | cons x xs ih =>
    have hxs : splitChars p xs = [xs] := ih (fun c hc => h c (List.mem_cons_of_mem x hc))
    have hpx : p x = false := h x (List.mem_cons_self x xs)
    simp only [splitChars, hxs, hpx, Bool.false_eq_true, if_false]

theorem splitChars_sep (p : Char → Bool) (a : List Char) (c : Char) (b : List Char)
    (ha : ∀ x ∈ a, p x = false) (hc : p c = true) :
    splitChars p (a ++ c :: b) = a :: splitChars p b := by
  induction a with
  | nil =>
    rcases h : splitChars p b with _ | ⟨g, gs⟩
    · exact absurd h (splitChars_ne_nil p b)
    · simp only [List.nil_append, splitChars, h, hc, if_true]
  | cons x xs ih =>
    have hih : splitChars p (xs ++ c :: b) = xs :: splitChars p b :=
      ih (fun y hy => ha y (List.mem_cons_of_mem x hy))
    have hpx : p x = false := ha x (List.mem_cons_self x xs)
    simp only [List.cons_append, splitChars, List.append_eq, hih, hpx,
      Bool.false_eq_true, if_false]

theorem jsParseInt_digits (l : List Char) (h0 : l ≠ [])
    (hd : ∀ c ∈ l, isDigitChar c = true) :
    jsParseInt (String.mk l) = some ((natOfDigits l : Nat) : Int) := by
  obtain ⟨c0, rest, rfl⟩ := List.exists_cons_of_ne_nil h0
  have hc0 := hd c0 (List.mem_cons_self c0 rest)
  obtain ⟨hsp, _, hneg, hpos⟩ := digit_char_facts c0 hc0
  have hdata : (String.mk (c0 :: rest)).data = c0 :: rest := rfl
  have hnotd : ¬(c0 = '-') := hneg
  have hnotor : ¬(c0 = '-' ∨ c0 = '+') := fun hcon => hcon.elim hneg hpos
  simp only [jsParseInt, hdata, List.dropWhile_cons, hsp, Bool.false_eq_true, if_false,
    List.head?_cons, Option.some.injEq]
  rw [if_neg hnotd, if_neg hnotor]
  rw [takeWhile_all isDigitChar (c0 :: rest) hd]
  simp

theorem parseDate_reduces (ds ms ys : List Char)
    (hds0 : ds ≠ []) (hms0 : ms ≠ []) (hys0 : ys ≠ [])
    (hdd : ∀ c ∈ ds, isDigitChar c = true) (hmd : ∀ c ∈ ms, isDigitChar c = true)
    (hyd : ∀ c ∈ ys, isDigitChar c = true) :
    parseDateDDMMYY (String.mk (ds ++ '-' :: (ms ++ '-' :: ys))) =
      (match dateUTC
          (if ((natOfDigits ys : Nat) : Int) < 100 then ((natOfDigits ys : Nat) : Int) + 2000
            else ((natOfDigits ys : Nat) : Int))
          (((natOfDigits ms : Nat) : Int) - 1) ((natOfDigits ds : Nat) : Int) with
       | none => none
       | some date =>
         if date.getUTCFullYear ≠
              (if ((natOfDigits ys : Nat) : Int) < 100 then ((natOfDigits ys : Nat) : Int) + 2000
                else ((natOfDigits ys : Nat) : Int))
            ∨ date.getUTCMonth ≠ ((natOfDigits ms : Nat) : Int) - 1
            ∨ date.getUTCDate ≠ ((natOfDigits ds : Nat) : Int)
         then none
         else some date) := by
  have hsepDash : ((fun c => c == '-' || c == '/') '-') = true := by decide
  have hfreeD : ∀ x ∈ ds, ((fun c => c == '-' || c == '/') x) = false :=
    fun x hx => (digit_char_facts x (hdd x hx)).2.1
  have hfreeM : ∀ x ∈ ms, ((fun c => c == '-' || c == '/') x) = false :=
    fun x hx => (digit_char_facts x (hmd x hx)).2.1
  have hfreeY : ∀ x ∈ ys, ((fun c => c == '-' || c == '/') x) = false :=
    fun x hx => (digit_char_facts x (hyd x hx)).2.1
  have hsplit : splitChars (fun c => c == '-' || c == '/') (ds ++ '-' :: (ms ++ '-' :: ys))
      = [ds, ms, ys] := by
    rw [splitChars_sep _ _ _ _ hfreeD hsepDash, splitChars_sep _ _ _ _ hfreeM hsepDash,
      splitChars_sepFree _ _ hfreeY]
  have hne : String.mk (ds ++ '-' :: (ms ++ '-' :: ys)) ≠ "" := by
    obtain ⟨c0, rest, rfl⟩ := List.exists_cons_of_ne_nil hds0
    intro hcon
    exact List.cons_ne_nil c0 _ (congrArg String.data hcon)
  have hdata : (String.mk (ds ++ '-' :: (ms ++ '-' :: ys))).data
      = ds ++ '-' :: (ms ++ '-' :: ys) := rfl
  simp only [parseDateDDMMYY, hne, if_false, jsSplit, hdata, hsplit, List.map_cons,
    List.map_nil, jsParseInt_digits ds hds0 hdd, jsParseInt_digits ms hms0 hmd,
    jsParseInt_digits ys hys0 hyd]

theorem dfc_day_linear (y m d : Int) :
    daysFromCivil y m 1 + (d - 1) = daysFromCivil y m d := by
  simp only [daysFromCivil]
  omega

theorem dfc_bounds (y m d : Int) (hy1 : 100 ≤ y) (hy2 : y ≤ 9999) (hm1 : 1 ≤ m)
    (hm2 : m ≤ 12) (hd1 : 0 ≤ d) (hd2 : d ≤ 99) :
    -100000000 ≤ daysFromCivil y m d ∧ daysFromCivil y m d ≤ 100000000 := by
  simp only [daysFromCivil]
  split_ifs <;> omega

theorem dateUTC_std (y m d : Int) (hy1 : 100 ≤ y) (hy2 : y ≤ 9999) (hm1 : 1 ≤ m)
    (hm2 : m ≤ 12) (hd1 : 0 ≤ d) (hd2 : d ≤ 99) :
    dateUTC y (m - 1) d = some ⟨daysFromCivil y m d⟩ := by
  have hdiv : (m - 1) / 12 = 0 := by omega
  have hmod : (m - 1) % 12 = m - 1 := by omega
  have hm' : m - 1 + 1 = m := by ring
  have hb := dfc_bounds y m d hy1 hy2 hm1 hm2 hd1 hd2
  simp only [dateUTC, hdiv, hmod, hm', add_zero]
  rw [if_neg (show ¬(0 ≤ y ∧ y ≤ 99) by omega)]
  rw [dfc_day_linear y m d]
  rw [if_neg (by omega)]

theorem parseDate_valid (ds ms ys : List Char) (D MO Y : Int)
    (hds0 : ds ≠ []) (hms0 : ms ≠ []) (hys0 : ys ≠ [])
    (hdd : ∀ c ∈ ds, isDigitChar c = true) (hmd : ∀ c ∈ ms, isDigitChar c = true)
    (hyd : ∀ c ∈ ys, isDigitChar c = true)
    (hD : D = ((natOfDigits ds : Nat) : Int))
    (hMO : MO = ((natOfDigits ms : Nat) : Int))
    (hY : Y = (if ((natOfDigits ys : Nat) : Int) < 100 then ((natOfDigits ys : Nat) : Int) + 2000
      else ((natOfDigits ys : Nat) : Int)))
    (hy1 : 100 ≤ Y) (hy2 : Y ≤ 9999) (hm1 : 1 ≤ MO) (hm2 : MO ≤ 12)
    (hd1 : 1 ≤ D) (hd99 : D ≤ 99) (hd2 : D ≤ daysInMonth Y MO) :
    parseDateDDMMYY (String.mk (ds ++ '-' :: (ms ++ '-' :: ys)))
      = some ⟨daysFromCivil Y MO D⟩ := by
  rw [parseDate_reduces ds ms ys hds0 hms0 hys0 hdd hmd hyd]
  rw [← hD, ← hMO, ← hY]
  rw [dateUTC_std Y MO D hy1 hy2 hm1 hm2 (by omega) hd99]
  have hrt := civil_roundtrip Y MO D hm1 hm2 hd1 hd2
  have hyy : JsDate.getUTCFullYear ⟨daysFromCivil Y MO D⟩ = Y := by
    simp only [JsDate.getUTCFullYear, hrt]
  have hmm : JsDate.getUTCMonth ⟨daysFromCivil Y MO D⟩ = MO - 1 := by
    simp only [JsDate.getUTCMonth, hrt]
  have hdd2 : JsDate.getUTCDate ⟨daysFromCivil Y MO D⟩ = D := by
    simp only [JsDate.getUTCDate, hrt]
  simp only [hyy, hmm, hdd2, ne_eq, not_true_eq_false, or_self, if_false]

theorem parseDate_invalid (ds ms ys : List Char) (D MO Y : Int)
    (hds0 : ds ≠ []) (hms0 : ms ≠ []) (hys0 : ys ≠ [])
    (hdd : ∀ c ∈ ds, isDigitChar c = true) (hmd : ∀ c ∈ ms, isDigitChar c = true)
    (hyd : ∀ c ∈ ys, isDigitChar c = true)
    (hD : D = ((natOfDigits ds : Nat) : Int))
    (hMO : MO = ((natOfDigits ms : Nat) : Int))
    (hY : Y = (if ((natOfDigits ys : Nat) : Int) < 100 then ((natOfDigits ys : Nat) : Int) + 2000
      else ((natOfDigits ys : Nat) : Int)))
    (hy1 : 100 ≤ Y) (hy2 : Y ≤ 9999) (hm1 : 1 ≤ MO) (hm2 : MO ≤ 12)
    (hd99 : D ≤ 99) (hbad : D = 0 ∨ daysInMonth Y MO < D) :
    parseDateDDMMYY (String.mk (ds ++ '-' :: (ms ++ '-' :: ys))) = none := by
  rw [parseDate_reduces ds ms ys hds0 hms0 hys0 hdd hmd hyd]
  rw [← hD, ← hMO, ← hY]
  rw [dateUTC_std Y MO D hy1 hy2 hm1 hm2 (by omega) hd99]
  have hne : civilFromDays (daysFromCivil Y MO D) ≠ (Y, MO, D) := by
    rcases hbad with h0 | hgt
    · subst h0
      exact civil_reject_zero Y MO hm1 hm2
    · exact civil_reject Y MO D hm1 hm2 hgt hd99
  have hcond : JsDate.getUTCFullYear ⟨daysFromCivil Y MO D⟩ ≠ Y ∨
      JsDate.getUTCMonth ⟨daysFromCivil Y MO D⟩ ≠ MO - 1 ∨
      JsDate.getUTCDate ⟨daysFromCivil Y MO D⟩ ≠ D := by
    by_contra hcon
    push_neg at hcon
    obtain ⟨h1, h2, h3⟩ := hcon
    simp only [JsDate.getUTCFullYear, JsDate.getUTCMonth, JsDate.getUTCDate] at h1 h2 h3
    apply hne
    have h2' : (civilFromDays (daysFromCivil Y MO D)).2.1 = MO := by omega
    exact Prod.ext h1 (Prod.ext h2' h3)
  simp only [if_pos hcond]

theorem sumCellsTotal_eq (cells : List MonthlyCell) :
    sumCellsTotal cells =
      ⟨(cells.map (fun c => c.count)).sum, (cells.map (fun c => c.items)).flatten⟩ := by
  suffices h : ∀ acc : MonthlyCell,
      cells.foldl (fun acc mc => ⟨acc.count + mc.count, acc.items ++ mc.items⟩) acc =
        ⟨acc.count + (cells.map (fun c => c.count)).sum,
          acc.items ++ (cells.map (fun c => c.items)).flatten⟩ by
    have h0 := h ⟨0, []⟩
    simpa [sumCellsTotal] using h0
  induction cells with
  | nil => intro acc; simp
  | cons c cs ih =>
    intro acc
    simp only [List.foldl_cons, List.map_cons, List.sum_cons, List.flatten_cons, ih]
    congr 1
    · omega
    · simp [List.append_assoc]

theorem bumpCellList_length (cells : List MonthlyCell) (i : Nat) (f : TractionFailure) :
    (bumpCellList cells i f).length = cells.length := by
  unfold bumpCellList
  cases h : cells.get? i <;> simp

theorem colCount_bump (cells : List MonthlyCell) (i j : Nat) (f : TractionFailure)
    (hj : j < cells.length) :
    colCount (bumpCellList cells j f) i = colCount cells i + (if i = j then 1 else 0) := by
  have hget : cells.get? j ≠ none := by
    rw [List.get?_eq_getElem?]
    simp [List.getElem?_eq_none_iff]
    omega
  cases h : cells.get? j with
  | none => exact absurd h hget
  | some cell =>
    unfold bumpCellList colCount
    rw [h]
    by_cases hij : i = j
    · subst hij
      rw [List.get?_set_eq, h]
      simp
    · rw [List.get?_set_ne _ _ (fun hc => hij hc.symm)]
      simp [hij]

theorem bumpCellList_mem (cells : List MonthlyCell) (j : Nat) (f : TractionFailure)
    (c : MonthlyCell) (hc : c ∈ bumpCellList cells j f) :
    c ∈ cells ∨ ∃ c0 ∈ cells, c = ⟨c0.count + 1, c0.items ++ [f]⟩ := by
  unfold bumpCellList at hc
  cases h : cells.get? j with
  | none => rw [h] at hc; exact Or.inl hc
  | some cell =>
    rw [h] at hc
    rcases List.mem_or_eq_of_mem_set hc with hmem | heq
    · exact Or.inl hmem
    · exact Or.inr ⟨cell, List.get?_mem h, heq⟩

theorem rowsMapUpdate_keys (m : List (String × List MonthlyCell)) (k : String) (j : Nat)
    (f : TractionFailure) :
    (rowsMapUpdate m k j f).map (fun p => p.1) = m.map (fun p => p.1) := by
  unfold rowsMapUpdate
  rw [List.map_map]
  apply List.map_congr_left
  intro p _
  simp only [Function.comp_apply]
  split_ifs <;> rfl

theorem rowsMapUpdate_mem (m : List (String × List MonthlyCell)) (k : String) (j : Nat)
    (f : TractionFailure) (q : String × List MonthlyCell) (hq : q ∈ rowsMapUpdate m k j f) :
    ∃ p ∈ m, q.1 = p.1 ∧ (q.2 = p.2 ∨ q.2 = bumpCellList p.2 j f) := by
  unfold rowsMapUpdate at hq
  rw [List.mem_map] at hq
  obtain ⟨p, hp, hqeq⟩ := hq
  by_cases hpk : p.1 == k
  · rw [if_pos hpk] at hqeq
    exact ⟨p, hp, by rw [← hqeq], Or.inr (by rw [← hqeq])⟩
  · rw [if_neg hpk] at hqeq
    exact ⟨p, hp, by rw [← hqeq], Or.inl (by rw [← hqeq])⟩

theorem rowsMapUpdate_not_has (m : List (String × List MonthlyCell)) (k : String) (j : Nat)
    (f : TractionFailure) (h : rowsMapHas m k = false) :
    rowsMapUpdate m k j f = m := by
  unfold rowsMapUpdate
  unfold rowsMapHas at h
  rw [List.any_eq_false] at h
  trans (List.map id m)
  · exact List.map_congr_left (fun p hp => by rw [if_neg (by simpa using h p hp)]; rfl)
  · exact List.map_id m

theorem rowsMapUpdate_cons (p : String × List MonthlyCell)
    (rest : List (String × List MonthlyCell)) (k : String) (j : Nat) (f : TractionFailure) :
    rowsMapUpdate (p :: rest) k j f =
      (if p.1 == k then (p.1, bumpCellList p.2 j f) else p) :: rowsMapUpdate rest k j f := rfl

theorem rowsMapHas_iff (m : List (String × List MonthlyCell)) (k : String) :
    rowsMapHas m k = true ↔ k ∈ m.map (fun p => p.1) := by
  unfold rowsMapHas
  rw [List.any_eq_true]
  constructor
  · rintro ⟨p, hp, hpk⟩
    rw [beq_iff_eq] at hpk
    rw [← hpk]
    exact List.mem_map_of_mem _ hp
  · intro hk
    rw [List.mem_map] at hk
    obtain ⟨p, hp, hpk⟩ := hk
    exact ⟨p, hp, by simp [hpk]⟩

theorem colCount_empty (i : Nat) : colCount emptyMonthCells i = 0 := by
  unfold colCount emptyMonthCells
  rw [List.get?_eq_getElem?]
  rcases Nat.lt_or_ge i 12 with h | h
  · rw [List.getElem?_replicate, if_pos h]
    rfl
  · rw [List.getElem?_eq_none (by simpa using h)]
    rfl

theorem rowsMapUpdate_colsum (m : List (String × List MonthlyCell)) (k : String)
    (j i : Nat) (f : TractionFailure)
    (hnd : (m.map (fun p => p.1)).Nodup) (hhas : rowsMapHas m k = true)
    (hlen : ∀ p ∈ m, p.2.length = 12) (hj : j < 12) :
    ((rowsMapUpdate m k j f).map (fun p => colCount p.2 i)).sum
      = (m.map (fun p => colCount p.2 i)).sum + (if i = j then 1 else 0) := by
  induction m with
  | nil => simp [rowsMapHas] at hhas
  | cons p rest ih =>
    simp only [List.map_cons, List.nodup_cons] at hnd
    obtain ⟨hnotin, hndrest⟩ := hnd
    rw [rowsMapUpdate_cons]
    by_cases hpk : p.1 == k
    · rw [if_pos hpk]
      have hk : p.1 = k := by simpa using hpk
      have hrest : rowsMapHas rest k = false := by
        cases hcontra : rowsMapHas rest k with
        | false => rfl
        | true =>
          rw [rowsMapHas_iff] at hcontra
          rw [hk] at hnotin
          exact absurd hcontra hnotin
      rw [rowsMapUpdate_not_has rest k j f hrest]
      simp only [List.map_cons, List.sum_cons]
      rw [colCount_bump p.2 i j f (by rw [hlen p (List.mem_cons_self p rest)]; exact hj)]
      omega
    · rw [if_neg hpk]
      have hhasrest : rowsMapHas rest k = true := by
        unfold rowsMapHas at hhas ⊢
        simp only [List.any_cons, Bool.or_eq_true] at hhas
        rcases hhas with h | h
        · exact absurd h hpk
        · exact h
      simp only [List.map_cons, List.sum_cons]
      rw [ih hndrest hhasrest (fun q hq => hlen q (List.mem_cons_of_mem p hq))]
      omega

theorem summaryStateInv_init (P : TractionFailure → Prop) :
    summaryStateInv P ([], emptyMonthCells) := by
  refine ⟨by simp, by simp, by simp [emptyMonthCells], by simp, ?_, ?_⟩
  · intro c hc
    simp only [emptyMonthCells, List.mem_replicate] at hc
    rw [hc.2]
    exact ⟨rfl, by simp⟩
  · intro i hi
    simp only [List.map_nil, List.sum_nil]
    exact colCount_empty i

theorem ensureRow_inv (P : TractionFailure → Prop)
    (st : List (String × List MonthlyCell) × List MonthlyCell) (k : String)
    (hinv : summaryStateInv P st) :
    summaryStateInv P ((if rowsMapHas st.1 k then st.1 else st.1 ++ [(k, emptyMonthCells)]), st.2) ∧
    rowsMapHas (if rowsMapHas st.1 k then st.1 else st.1 ++ [(k, emptyMonthCells)]) k = true := by
  obtain ⟨hnd, hlen1, hlen2, hc1, hc2, hcol⟩ := hinv
  by_cases hhas : rowsMapHas st.1 k = true
  · simp only [if_pos hhas]
    exact ⟨⟨hnd, hlen1, hlen2, hc1, hc2, hcol⟩, hhas⟩
  · have hfalse : rowsMapHas st.1 k = false := by
      cases h : rowsMapHas st.1 k with
      | false => rfl
      | true => exact absurd h hhas
    have hknot : k ∉ st.1.map (fun p => p.1) := fun hk => hhas ((rowsMapHas_iff st.1 k).mpr hk)
    simp only [hfalse, Bool.false_eq_true, if_false]
    refine ⟨⟨?_, ?_, hlen2, ?_, hc2, ?_⟩, ?_⟩
    · rw [List.map_append]
      simp only [List.map_cons, List.map_nil]
      rw [List.nodup_append]
      exact ⟨hnd, List.nodup_singleton k, by simpa using hknot⟩
    · intro p hp
      rcases List.mem_append.mp hp with h | h
      · exact hlen1 p h
      · rw [List.mem_singleton] at h
        rw [h]
        simp [emptyMonthCells]
    · intro p hp c hc
      rcases List.mem_append.mp hp with h | h
      · exact hc1 p h c hc
      · rw [List.mem_singleton] at h
        rw [h] at hc
        simp only [emptyMonthCells, List.mem_replicate] at hc
        rw [hc.2]
        exact ⟨rfl, by simp⟩
    · intro i hi
      rw [List.map_append]
      simp only [List.map_cons, List.map_nil, List.sum_append, List.sum_cons, List.sum_nil]
      rw [colCount_empty i, hcol i hi]
      omega
    · rw [rowsMapHas_iff, List.map_append]
      simp

theorem updateStep_inv (P : TractionFailure → Prop)
    (m : List (String × List MonthlyCell)) (g : List MonthlyCell) (k : String) (j : Nat)
    (f : TractionFailure) (hst : summaryStateInv P (m, g)) (hhas : rowsMapHas m k = true)
    (hj : j < 12) (hf : P f) :
    summaryStateInv P (rowsMapUpdate m k j f, bumpCellList g j f) := by
  obtain ⟨hnd, hlen1, hlen2, hc1, hc2, hcol⟩ := hst
  refine ⟨?_, ?_, ?_, ?_, ?_, ?_⟩
  · rw [rowsMapUpdate_keys]
    exact hnd
  · intro p hp
    obtain ⟨p0, hp0, _, hsnd⟩ := rowsMapUpdate_mem m k j f p hp
    rcases hsnd with h | h
    · rw [h]; exact hlen1 p0 hp0
    · rw [h, bumpCellList_length]; exact hlen1 p0 hp0
  · rw [bumpCellList_length]; exact hlen2
  · intro p hp c hc
    obtain ⟨p0, hp0, _, hsnd⟩ := rowsMapUpdate_mem m k j f p hp
    rcases hsnd with h | h
    · rw [h] at hc; exact hc1 p0 hp0 c hc
    · rw [h] at hc
      rcases bumpCellList_mem p0.2 j f c hc with hm | ⟨c0, hc0, hce⟩
      · exact hc1 p0 hp0 c hm
      · obtain ⟨hcnt, hP⟩ := hc1 p0 hp0 c0 hc0
        rw [hce]
        refine ⟨by simp [hcnt], ?_⟩
        intro x hx
        rcases List.mem_append.mp hx with hx | hx
        · exact hP x hx
        · rw [List.mem_singleton] at hx
          rw [hx]; exact hf
  · intro c hc
    rcases bumpCellList_mem g j f c hc with hm | ⟨c0, hc0, hce⟩
    · exact hc2 c hm
    · obtain ⟨hcnt, hP⟩ := hc2 c0 hc0
      rw [hce]
      refine ⟨by simp [hcnt], ?_⟩
      intro x hx
      rcases List.mem_append.mp hx with hx | hx
      · exact hP x hx
      · rw [List.mem_singleton] at hx
        rw [hx]; exact hf
  · intro i hi
    rw [colCount_bump g i j f (by rw [hlen2]; exact hj)]
    rw [rowsMapUpdate_colsum m k j i f hnd hhas hlen1 hj]
    rw [hcol i hi]

theorem processStep_inv (P : TractionFailure → Prop) (groupOf : TractionFailure → String)
    (st : List (String × List MonthlyCell) × List MonthlyCell) (f : TractionFailure)
    (hinv : summaryStateInv P st) (hf : P f) :
    summaryStateInv P (processStep groupOf st f) := by
  have hmain : ∀ (k : String) (rows1 : List (String × List MonthlyCell)),
      summaryStateInv P (rows1, st.2) → rowsMapHas rows1 k = true →
      summaryStateInv P
        (match parseDateDDMMYY f.datefailed with
         | none => (rows1, st.2)
         | some date =>
           if FY_MONTH_ORDER.indexOf date.getUTCMonth < FY_MONTH_ORDER.length then
             (rowsMapUpdate rows1 k (FY_MONTH_ORDER.indexOf date.getUTCMonth) f,
              bumpCellList st.2 (FY_MONTH_ORDER.indexOf date.getUTCMonth) f)
           else (rows1, st.2)) := by
    intro k rows1 h1 h2
    rcases parseDateDDMMYY f.datefailed with _ | date
    · exact h1
    · dsimp only
      split_ifs with hidx
      · exact updateStep_inv P rows1 st.2 k _ f h1 h2
          (by simpa [FY_MONTH_ORDER] using hidx) hf
      · exact h1
  obtain ⟨hinv1, hhas1⟩ :=
    ensureRow_inv P st (if groupOf f = "" then "Uncategorized" else groupOf f) hinv
  exact hmain _ _ hinv1 hhas1

theorem foldl_processStep_inv (P : TractionFailure → Prop) (groupOf : TractionFailure → String)
    (l : List TractionFailure) : ∀ st, summaryStateInv P st → (∀ f ∈ l, P f) →
    summaryStateInv P (l.foldl (processStep groupOf) st) := by
  induction l with
  | nil => intro st h _; exact h
  | cons f fs ih =>
    intro st h hP
    exact ih _ (processStep_inv P groupOf st f h (hP f (List.mem_cons_self f fs)))
      (fun x hx => hP x (List.mem_cons_of_mem f hx))

/-! ## Claim theorems -/

theorem sumSummaryTotals_get (A B : SummaryTotals) (i : Nat) :
    (sumSummaryTotals (some A) (some B)).monthlyData.get? i =
      (A.monthlyData.get? i).map (fun a =>
        MonthlyCell.mk (a.count + ((B.monthlyData.get? i).getD ⟨0, []⟩).count)
          (a.items ++ ((B.monthlyData.get? i).getD ⟨0, []⟩).items)) := by
  show (A.monthlyData.enum.map _).get? i = _
  rw [List.get?_map, List.get?_enum]
  cases A.monthlyData.get? i <;> rfl

/-- C1: each row total count of a processSummary table equals the sum of the
row's twelve monthly counts, and each grand-total slot count equals the sum of
the corresponding slot counts over all group rows. -/
theorem claim_C1_summary_row_and_column_sums (failures : List TractionFailure)
    (fy title groupTitle : String) (filterFn : TractionFailure → Bool)
    (groupOf : TractionFailure → String) :
    (∀ row ∈ (processSummary failures fy title groupTitle filterFn groupOf).rows,
      row.total.count = (row.monthlyData.map (fun c => c.count)).sum) ∧
    (∀ i, i < 12 →
      colCount (processSummary failures fy title groupTitle filterFn groupOf).totals.monthlyData i =
        ((processSummary failures fy title groupTitle filterFn groupOf).rows.map
          (fun row => colCount row.monthlyData i)).sum) := by
  obtain ⟨hnd, hlen1, hlen2, hc1, hc2, hcol⟩ :=
    foldl_processStep_inv (fun _ => True) groupOf (failures.filter filterFn)
      ([], emptyMonthCells) (summaryStateInv_init _) (fun _ _ => trivial)
  constructor
  · intro row hrow
    simp only [processSummary] at hrow
    rw [List.mem_mergeSort] at hrow
    obtain ⟨p, _, hpe⟩ := List.mem_map.mp hrow
    rw [← hpe]
    show (sumCellsTotal p.2).count = _
    rw [sumCellsTotal_eq]
  · intro i hi
    simp only [processSummary]
    have hsum : (((((failures.filter filterFn).foldl (processStep groupOf)
          ([], emptyMonthCells)).1.map
            (fun p => SummaryRow.mk p.1 p.2 (sumCellsTotal p.2))).mergeSort
          (fun a b => decide (a.name ≤ b.name))).map
            (fun row => colCount row.monthlyData i)).sum
        = ((((failures.filter filterFn).foldl (processStep groupOf)
          ([], emptyMonthCells)).1.map
            (fun p => SummaryRow.mk p.1 p.2 (sumCellsTotal p.2))).map
              (fun row => colCount row.monthlyData i)).sum :=
      List.Perm.sum_eq (List.Perm.map _ (List.mergeSort_perm _ _))
    rw [hsum, List.map_map]
    exact hcol i hi

/-- C2 counterexample: merging two equal-shape totals is not commutative on
the member lists — concatenation order differs. -/
theorem claim_C2_counterexample :
    sumSummaryTotals (some ⟨emptyMonthCells, ⟨1, [{ locono := "1" }]⟩⟩)
        (some ⟨emptyMonthCells, ⟨1, [{ locono := "2" }]⟩⟩) ≠
      sumSummaryTotals (some ⟨emptyMonthCells, ⟨1, [{ locono := "2" }]⟩⟩)
        (some ⟨emptyMonthCells, ⟨1, [{ locono := "1" }]⟩⟩) := by
  decide

/-- C2 amended: for equal-shape operands the merge is commutative on every
per-cell count and on the total count, and the per-cell member lists of the
two merge orders are permutations of each other (concatenated in operand
order), not equal lists. -/
theorem claim_C2_merge_commutes_up_to_order (A B : SummaryTotals)
    (hshape : A.monthlyData.length = B.monthlyData.length) :
    ((sumSummaryTotals (some A) (some B)).monthlyData.map (fun c => c.count) =
      (sumSummaryTotals (some B) (some A)).monthlyData.map (fun c => c.count)) ∧
    (∀ i : Nat, (((sumSummaryTotals (some A) (some B)).monthlyData.get? i).getD ⟨0, []⟩).items.Perm
      (((sumSummaryTotals (some B) (some A)).monthlyData.get? i).getD ⟨0, []⟩).items) ∧
    (sumSummaryTotals (some A) (some B)).total.count =
      (sumSummaryTotals (some B) (some A)).total.count ∧
    (sumSummaryTotals (some A) (some B)).total.items.Perm
      (sumSummaryTotals (some B) (some A)).total.items := by
  refine ⟨?_, ?_, ?_, ?_⟩
  · apply List.ext_get?
    intro i
    rw [List.get?_map, List.get?_map, sumSummaryTotals_get, sumSummaryTotals_get]
    rcases hA : A.monthlyData.get? i with _ | a
    · have hB : B.monthlyData.get? i = none := by
        rw [List.get?_eq_getElem?] at hA ⊢
        rw [List.getElem?_eq_none_iff] at hA
        rw [List.getElem?_eq_none_iff]
        omega
      rw [hB]
    · have hlt : i < A.monthlyData.length := by
        by_contra hcon
        rw [List.get?_eq_getElem?, List.getElem?_eq_none (by omega)] at hA
        exact Option.noConfusion hA
      have hB : ∃ b, B.monthlyData.get? i = some b := by
        rw [List.get?_eq_getElem?]
        have : i < B.monthlyData.length := by omega
        exact ⟨B.monthlyData[i], List.getElem?_eq_getElem this⟩
      obtain ⟨b, hb⟩ := hB
      rw [hb]
      simp only [Option.map_some', Option.getD_some]
      rw [Nat.add_comm]
  · intro i
    rw [sumSummaryTotals_get, sumSummaryTotals_get]
    rcases hA : A.monthlyData.get? i with _ | a
    · have hB : B.monthlyData.get? i = none := by
        rw [List.get?_eq_getElem?] at hA ⊢
        rw [List.getElem?_eq_none_iff] at hA
        rw [List.getElem?_eq_none_iff]
        omega
      rw [hB]
    · have hlt : i < A.monthlyData.length := by
        by_contra hcon
        rw [List.get?_eq_getElem?, List.getElem?_eq_none (by omega)] at hA
        exact Option.noConfusion hA
      have hB : ∃ b, B.monthlyData.get? i = some b := by
        rw [List.get?_eq_getElem?]
        have : i < B.monthlyData.length := by omega
        exact ⟨B.monthlyData[i], List.getElem?_eq_getElem this⟩
      obtain ⟨b, hb⟩ := hB
      rw [hb]
      simp only [Option.map_some', Option.getD_some]
      exact List.perm_append_comm
  · show A.total.count + B.total.count = B.total.count + A.total.count
    omega
  · show (A.total.items ++ B.total.items).Perm (B.total.items ++ A.total.items)
    exact List.perm_append_comm

theorem sumCellsTotal_count_eq_length (cells : List MonthlyCell)
    (hc : ∀ c ∈ cells, c.count = c.items.length) :
    (sumCellsTotal cells).count = (sumCellsTotal cells).items.length := by
  rw [sumCellsTotal_eq]
  show (cells.map (fun c => c.count)).sum = (cells.map (fun c => c.items)).flatten.length
  rw [List.length_flatten, List.map_map]
  congr 1
  exact List.map_congr_left (fun c hcm => by
    simp only [Function.comp_apply]
    exact hc c hcm)

theorem mem_sumCellsTotal_items (cells : List MonthlyCell) (x : TractionFailure)
    (hx : x ∈ (sumCellsTotal cells).items) : ∃ c ∈ cells, x ∈ c.items := by
  rw [sumCellsTotal_eq] at hx
  have hx2 : x ∈ (cells.map (fun c => c.items)).flatten := hx
  rw [List.mem_flatten] at hx2
  obtain ⟨l, hl, hxl⟩ := hx2
  rw [List.mem_map] at hl
  obtain ⟨c, hc, hce⟩ := hl
  exact ⟨c, hc, hce ▸ hxl⟩

theorem processSummary_member_pred (failures : List TractionFailure)
    (fy title groupTitle : String) (filterFn : TractionFailure → Bool)
    (groupOf : TractionFailure → String) (x : TractionFailure)
    (hx : (∃ row ∈ (processSummary failures fy title groupTitle filterFn groupOf).rows,
        (∃ c ∈ row.monthlyData, x ∈ c.items) ∨ x ∈ row.total.items) ∨
      (∃ c ∈ (processSummary failures fy title groupTitle filterFn groupOf).totals.monthlyData,
        x ∈ c.items) ∨
      x ∈ (processSummary failures fy title groupTitle filterFn groupOf).totals.total.items) :
    filterFn x = true := by
  obtain ⟨hnd, hlen1, hlen2, hc1, hc2, hcol⟩ :=
    foldl_processStep_inv (fun f => filterFn f = true) groupOf (failures.filter filterFn)
      ([], emptyMonthCells) (summaryStateInv_init _)
      (fun f hf => (List.mem_filter.mp hf).2)
  simp only [processSummary] at hx
  rcases hx with ⟨row, hrow, hcase⟩ | ⟨c, hc, hxc⟩ | hx
  · rw [List.mem_mergeSort] at hrow
    obtain ⟨p, hp, hpe⟩ := List.mem_map.mp hrow
    rcases hcase with ⟨c, hc, hxc⟩ | hx
    · rw [← hpe] at hc
      exact (hc1 p hp c hc).2 x hxc
    · rw [← hpe] at hx
      obtain ⟨c, hc, hxc⟩ := mem_sumCellsTotal_items p.2 x hx
      exact (hc1 p hp c hc).2 x hxc
  · exact (hc2 c hc).2 x hxc
  · obtain ⟨c, hc, hxc⟩ := mem_sumCellsTotal_items _ x hx
    exact (hc2 c hc).2 x hxc

/-- C9: every aggregation cell produced by processSummary (monthly cells, row
totals, grand-total cells) stores a count equal to the length of its member
list, and sumSummaryTotals preserves this invariant. -/
theorem claim_C9_count_equals_members :
    (∀ (failures : List TractionFailure) (fy title groupTitle : String)
        (filterFn : TractionFailure → Bool) (groupOf : TractionFailure → String),
      (∀ row ∈ (processSummary failures fy title groupTitle filterFn groupOf).rows,
        (∀ c ∈ row.monthlyData, c.count = c.items.length) ∧
        row.total.count = row.total.items.length) ∧
      (∀ c ∈ (processSummary failures fy title groupTitle filterFn groupOf).totals.monthlyData,
        c.count = c.items.length) ∧
      (processSummary failures fy title groupTitle filterFn groupOf).totals.total.count =
        (processSummary failures fy title groupTitle filterFn groupOf).totals.total.items.length) ∧
    (∀ A B : SummaryTotals,
      (∀ c ∈ A.monthlyData, c.count = c.items.length) →
      (∀ c ∈ B.monthlyData, c.count = c.items.length) →
      A.total.count = A.total.items.length →
      B.total.count = B.total.items.length →
      (∀ c ∈ (sumSummaryTotals (some A) (some B)).monthlyData, c.count = c.items.length) ∧
      (sumSummaryTotals (some A) (some B)).total.count =
        (sumSummaryTotals (some A) (some B)).total.items.length) := by
  constructor
  · intro failures fy title groupTitle filterFn groupOf
    obtain ⟨hnd, hlen1, hlen2, hc1, hc2, hcol⟩ :=
      foldl_processStep_inv (fun _ => True) groupOf (failures.filter filterFn)
        ([], emptyMonthCells) (summaryStateInv_init _) (fun _ _ => trivial)
    refine ⟨?_, ?_, ?_⟩
    · intro row hrow
      simp only [processSummary] at hrow
      rw [List.mem_mergeSort] at hrow
      obtain ⟨p, hp, hpe⟩ := List.mem_map.mp hrow
      rw [← hpe]
      exact ⟨fun c hc => (hc1 p hp c hc).1,
        sumCellsTotal_count_eq_length p.2 (fun c hc => (hc1 p hp c hc).1)⟩
    · intro c hc
      simp only [processSummary] at hc
      exact (hc2 c hc).1
    · simp only [processSummary]
      exact sumCellsTotal_count_eq_length _ (fun c hc => (hc2 c hc).1)
  · intro A B hA hB hAt hBt
    constructor
    · intro c hc
      rw [List.mem_iff_get?] at hc
      obtain ⟨i, hi⟩ := hc
      rw [sumSummaryTotals_get] at hi
      rcases hgA : A.monthlyData.get? i with _ | a
      · rw [hgA] at hi
        exact Option.noConfusion hi
      · rw [hgA] at hi
        rw [Option.map_some'] at hi
        have hceq := Option.some.inj hi
        rw [← hceq]
        have haA : a.count = a.items.length := hA a (List.get?_mem hgA)
        rcases hgB : B.monthlyData.get? i with _ | b
        · simp only [Option.getD_none, List.append_nil]
          omega
        · have haB : b.count = b.items.length := hB b (List.get?_mem hgB)
          simp only [Option.getD_some, List.length_append]
          omega
    · show A.total.count + B.total.count = (A.total.items ++ B.total.items).length
      rw [List.length_append]
      omega

/-- C6 counterexample: the alias priority in the code is locono, loconumber,
loco; the claimed order locono, loco, loconumber picks a different key on a
record carrying both loconumber and loco. -/
theorem claim_C6_counterexample :
    findNormalizedLocoNumberKey [("loconumber", "1"), ("loco", "2")] = some "loconumber" ∧
    (["locono", "loco", "loconumber"].find?
      (fun a => ([("loconumber", "1"), ("loco", "2")].map (fun p => p.1)).contains a))
      = some "loco" ∧
    ("loconumber" : String) ≠ "loco" := by
  decide

/-- C6 amended: the lookup tries locono, then loconumber, then loco, first
match winning; and a table whose first record has no alias key yields an
empty result set from the getLocoData failure filter, without any error. -/
theorem claim_C6_alias_priority_and_notfound :
    (∀ (r : List (String × String)) (keys : List String), keys = r.map (fun p => p.1) →
      (findNormalizedLocoNumberKey r = some "locono" ↔ "locono" ∈ keys) ∧
      (findNormalizedLocoNumberKey r = some "loconumber" ↔
        "locono" ∉ keys ∧ "loconumber" ∈ keys) ∧
      (findNormalizedLocoNumberKey r = some "loco" ↔
        "locono" ∉ keys ∧ "loconumber" ∉ keys ∧ "loco" ∈ keys) ∧
      (findNormalizedLocoNumberKey r = none ↔
        "locono" ∉ keys ∧ "loconumber" ∉ keys ∧ "loco" ∉ keys)) ∧
    (∀ (records : List (List (String × String))) (locoNo : String)
        (first : List (String × String)), records.head? = some first →
      findNormalizedLocoNumberKey first = none →
      getLocoFailuresFor locoNo records = []) := by
  constructor
  · intro r keys hkeys
    subst hkeys
    by_cases h1 : "locono" ∈ r.map (fun p => p.1) <;>
      by_cases h2 : "loconumber" ∈ r.map (fun p => p.1) <;>
        by_cases h3 : "loco" ∈ r.map (fun p => p.1) <;>
          simp [findNormalizedLocoNumberKey, h1, h2, h3]
  · intro records locoNo first hhead hkey
    unfold getLocoFailuresFor filterTableByLoco
    simp only [hhead, hkey]

/-- C7 counterexample: a stored value and a query differing only in leading
whitespace do not match, because the code upper-cases but does not trim the
stored side. -/
theorem claim_C7_counterexample :
    jsTrim " 22003" = "22003" ∧
    locoRecordMatches (some "22003") (jsToUpperCase (jsTrim "22003")) = true ∧
    locoRecordMatches (some " 22003") (jsToUpperCase (jsTrim "22003")) = false := by
  decide

/-- C7 amended: the vehicle-id comparison upper-cases both sides but trims
whitespace only on the query side: a record matches exactly when the
upper-cased stored value equals the upper-cased trimmed query, so case
differences and query-side surrounding whitespace are tolerated while
stored-side whitespace is significant. -/
theorem claim_C7_match_semantics :
    (∀ stored q : String,
      locoRecordMatches (some stored) (jsToUpperCase (jsTrim q)) = true ↔
        jsToUpperCase stored = jsToUpperCase (jsTrim q)) ∧
    locoRecordMatches (some "abc") (jsToUpperCase (jsTrim " ABC ")) = true := by
  constructor
  · intro stored q
    simp only [locoRecordMatches, jsStringOfOpt]
    exact beq_iff_eq
  · decide

/-- C10: transformWDG4Failure always writes an empty elocosaf, an empty
elocosaf fails all three eLocos include-predicates (Y-LOCO, Y-OTH, PUNC), and
consequently no reconciled WDG4 record ever appears in any cell of the
summaries built from those predicates. -/
theorem claim_C10_wdg4_absent_from_elocos_views :
    (∀ raw : List (String × String), (transformWDG4Failure raw).elocosaf = "") ∧
    (∀ f : TractionFailure, f.elocosaf = "" →
      predYLoco f = false ∧ predYOth f = false ∧ predPunc f = false) ∧
    (∀ pred : TractionFailure → Bool, (pred = predYLoco ∨ pred = predYOth ∨ pred = predPunc) →
      ∀ (failures : List TractionFailure) (fy title groupTitle : String)
        (groupOf : TractionFailure → String) (raw : List (String × String)),
      (∀ row ∈ (processSummary failures fy title groupTitle pred groupOf).rows,
        (∀ c ∈ row.monthlyData, transformWDG4Failure raw ∉ c.items) ∧
        transformWDG4Failure raw ∉ row.total.items) ∧
      (∀ c ∈ (processSummary failures fy title groupTitle pred groupOf).totals.monthlyData,
        transformWDG4Failure raw ∉ c.items) ∧
      transformWDG4Failure raw ∉
        (processSummary failures fy title groupTitle pred groupOf).totals.total.items) := by
  have h1 : ∀ raw : List (String × String), (transformWDG4Failure raw).elocosaf = "" :=
    fun raw => rfl
  have h2 : ∀ f : TractionFailure, f.elocosaf = "" →
      predYLoco f = false ∧ predYOth f = false ∧ predPunc f = false := by
    intro f hf
    refine ⟨?_, ?_, ?_⟩ <;> (simp only [predYLoco, predYOth, predPunc]; rw [hf]; decide)
  refine ⟨h1, h2, ?_⟩
  intro pred hpred failures fy title groupTitle groupOf raw
  have hfalse : pred (transformWDG4Failure raw) = false := by
    obtain ⟨hy, ho, hp⟩ := h2 (transformWDG4Failure raw) (h1 raw)
    rcases hpred with h | h | h <;> (rw [h]; assumption)
  have hnot : ∀ P : Prop,
      ((∃ row ∈ (processSummary failures fy title groupTitle pred groupOf).rows,
          (∃ c ∈ row.monthlyData, transformWDG4Failure raw ∈ c.items) ∨
          transformWDG4Failure raw ∈ row.total.items) ∨
        (∃ c ∈ (processSummary failures fy title groupTitle pred groupOf).totals.monthlyData,
          transformWDG4Failure raw ∈ c.items) ∨
        transformWDG4Failure raw ∈
          (processSummary failures fy title groupTitle pred groupOf).totals.total.items) → P := by
    intro P hmem
    have := processSummary_member_pred failures fy title groupTitle pred groupOf
      (transformWDG4Failure raw) hmem
    rw [hfalse] at this
    exact absurd this (by simp)
  refine ⟨?_, ?_, ?_⟩
  · intro row hrow
    refine ⟨fun c hc hx => hnot False (Or.inl ⟨row, hrow, Or.inl ⟨c, hc, hx⟩⟩),
      fun hx => hnot False (Or.inl ⟨row, hrow, Or.inr hx⟩)⟩
  · intro c hc hx
    exact hnot False (Or.inr (Or.inl ⟨c, hc, hx⟩))
  · intro hx
    exact hnot False (Or.inr (Or.inr hx))

/-- C3: a DD-MM-YY or DD-MM-YYYY digit string (month 1..12) denoting a real
calendar date parses to a date whose reconstructed year (two-digit or
sub-100 years read as 2000 + year), month (0-indexed) and day equal the input
components; and whenever the day component is out of range for that month
(0, or past the month length), parseDateDDMMYY returns null rather than a
rolled-over date. -/
theorem claim_C3_date_parse_validation (ds ms ys : List Char) (D MO Y : Int)
    (hds : ds.length = 2) (hms : ms.length = 2) (hys : ys.length = 2 ∨ ys.length = 4)
    (hdd : ∀ c ∈ ds, isDigitChar c = true) (hmd : ∀ c ∈ ms, isDigitChar c = true)
    (hyd : ∀ c ∈ ys, isDigitChar c = true)
    (hD : D = ((natOfDigits ds : Nat) : Int))
    (hMO : MO = ((natOfDigits ms : Nat) : Int))
    (hY : Y = (if ((natOfDigits ys : Nat) : Int) < 100 then ((natOfDigits ys : Nat) : Int) + 2000
      else ((natOfDigits ys : Nat) : Int)))
    (hm1 : 1 ≤ MO) (hm2 : MO ≤ 12) :
    (1 ≤ D → D ≤ daysInMonth Y MO →
      ∃ t : JsDate, parseDateDDMMYY (String.mk (ds ++ '-' :: (ms ++ '-' :: ys))) = some t ∧
        t.getUTCFullYear = Y ∧ t.getUTCMonth = MO - 1 ∧ t.getUTCDate = D) ∧
    ((D = 0 ∨ daysInMonth Y MO < D) →
      parseDateDDMMYY (String.mk (ds ++ '-' :: (ms ++ '-' :: ys))) = none) := by
  have hds0 : ds ≠ [] := by intro h; rw [h] at hds; simp at hds
  have hms0 : ms ≠ [] := by intro h; rw [h] at hms; simp at hms
  have hys0 : ys ≠ [] := by
    intro h
    rcases hys with hcase | hcase <;> (rw [h] at hcase; simp at hcase)
  have hDlt := natOfDigits_lt ds hdd
  rw [hds] at hDlt
  norm_num at hDlt
  have hd99 : D ≤ 99 := by omega
  have hYlt := natOfDigits_lt ys hyd
  have hYb : 100 ≤ Y ∧ Y ≤ 9999 := by
    rcases hys with hcase | hcase <;>
      (rw [hcase] at hYlt; norm_num at hYlt; split_ifs at hY <;> omega)
  constructor
  · intro hd1 hd2
    refine ⟨⟨daysFromCivil Y MO D⟩,
      parseDate_valid ds ms ys D MO Y hds0 hms0 hys0 hdd hmd hyd hD hMO hY hYb.1 hYb.2
        hm1 hm2 hd1 hd99 hd2, ?_, ?_, ?_⟩
    · show (civilFromDays (daysFromCivil Y MO D)).1 = Y
      rw [civil_roundtrip Y MO D hm1 hm2 hd1 hd2]
    · show (civilFromDays (daysFromCivil Y MO D)).2.1 - 1 = MO - 1
      rw [civil_roundtrip Y MO D hm1 hm2 hd1 hd2]
    · show (civilFromDays (daysFromCivil Y MO D)).2.2 = D
      rw [civil_roundtrip Y MO D hm1 hm2 hd1 hd2]
  · intro hbad
    exact parseDate_invalid ds ms ys D MO Y hds0 hms0 hys0 hdd hmd hyd hD hMO hY hYb.1 hYb.2
      hm1 hm2 hd99 hbad

/-- C4 counterexample: the part 12x is non-numeric in the claimed sense (it
contains a letter), yet parseDateDDMMYY accepts the string because parseInt
reads the numeric prefix 12 and ignores the rest. -/
theorem claim_C4_counterexample :
    jsSplit (fun c => c == '-' || c == '/') "12x-05-24" = ["12x", "05", "24"] ∧
    ('x' ∈ ("12x" : String).data ∧ isDigitChar 'x' = false) ∧
    (parseDateDDMMYY "12x-05-24").isSome = true := by
  decide

/-- C4 amended: parseDateDDMMYY returns null whenever splitting on dash or
slash does not yield exactly 3 parts, and whenever any part is NaN under
parseInt, that is, has no leading decimal digits after optional whitespace
and sign; a part with trailing non-numeric characters after a digit prefix
is accepted with the suffix ignored (see the counterexample). -/
theorem claim_C4_parse_failure_modes (s : String) :
    ((jsSplit (fun c => c == '-' || c == '/') s).length ≠ 3 → parseDateDDMMYY s = none) ∧
    (∀ p ∈ jsSplit (fun c => c == '-' || c == '/') s, jsParseInt p = none →
      parseDateDDMMYY s = none) := by
  by_cases h0 : s = ""
  · subst h0
    exact ⟨fun _ => rfl, fun p hp hnan => rfl⟩
  constructor
  · intro hlen
    unfold parseDateDDMMYY
    rw [if_neg h0]
    rcases hsp : jsSplit (fun c => c == '-' || c == '/') s with _ | ⟨p0, _ | ⟨p1, _ | ⟨p2, _ | ⟨p3, rest⟩⟩⟩⟩
    · rfl
    · rfl
    · rfl
    · rw [hsp] at hlen
      simp at hlen
    · rfl
  · intro p hp hnan
    unfold parseDateDDMMYY
    rw [if_neg h0]
    rcases hsp : jsSplit (fun c => c == '-' || c == '/') s with _ | ⟨p0, _ | ⟨p1, _ | ⟨p2, _ | ⟨p3, rest⟩⟩⟩⟩
    · rfl
    · rfl
    · rfl
    · rw [hsp] at hp
      simp only [List.mem_cons, List.not_mem_nil, or_false] at hp
      rcases hp with hp | hp | hp <;>
        (subst hp; dsimp only; rw [hnan]) <;>
        first
          | rfl
          | (cases jsParseInt p0 <;> rfl)
          | (cases jsParseInt p0 <;> cases jsParseInt p1 <;> rfl)
    · rfl

theorem find_mapReplace (o : List (String × String)) (k v : String)
    (h : o.any (fun p => p.1 == k) = true) :
    (o.map (fun p => if p.1 == k then (k, v) else p)).find? (fun p => p.1 == k)
      = some (k, v) := by
  induction o with
  | nil => simp at h
  | cons q t ih =>
    simp only [List.any_cons, Bool.or_eq_true] at h
    by_cases hq : (q.1 == k) = true
    · simp only [List.map_cons, if_pos hq]
      exact List.find?_cons_of_pos _ (by simp)
    · have ht : t.any (fun p => p.1 == k) = true := by
        rcases h with h | h
        · exact absurd h hq
        · exact h
      simp only [List.map_cons, if_neg hq]
      rw [@List.find?_cons_of_neg _ (fun p => p.1 == k) q _ hq]
      exact ih ht

theorem find_mapReplace_other (o : List (String × String)) (k v k' : String) (h : k' ≠ k) :
    (o.map (fun p => if p.1 == k then (k, v) else p)).find? (fun p => p.1 == k')
      = o.find? (fun p => p.1 == k') := by
  induction o with
  | nil => rfl
  | cons q t ih =>
    by_cases hq : (q.1 == k) = true
    · have hq1 : q.1 = k := beq_iff_eq.mp hq
      have hkk : ¬ (((k, v) : String × String).1 == k') = true := by
        simp only [beq_iff_eq]
        exact fun hc => h hc.symm
      have hq2 : ¬ (q.1 == k') = true := by
        simp only [beq_iff_eq, hq1]
        exact fun hc => h hc.symm
      simp only [List.map_cons, if_pos hq]
      rw [@List.find?_cons_of_neg _ (fun p => p.1 == k') (k, v) _ hkk,
        @List.find?_cons_of_neg _ (fun p => p.1 == k') q _ hq2]
      exact ih
    · simp only [List.map_cons, if_neg hq]
      by_cases hq2 : (q.1 == k') = true
      · rw [@List.find?_cons_of_pos _ (fun p => p.1 == k') q _ hq2,
          @List.find?_cons_of_pos _ (fun p => p.1 == k') q _ hq2]
      · rw [@List.find?_cons_of_neg _ (fun p => p.1 == k') q _ hq2,
          @List.find?_cons_of_neg _ (fun p => p.1 == k') q _ hq2]
        exact ih

theorem recGet_objSet_self (o : List (String × String)) (k v : String) :
    recGet (objSet o k v) k = some v := by
  unfold objSet recGet
  by_cases h : o.any (fun p => p.1 == k) = true
  · rw [if_pos h, find_mapReplace o k v h]
    rfl
  · rw [if_neg h, List.find?_append]
    have hnone : o.find? (fun p => p.1 == k) = none := by
      rw [List.find?_eq_none]
      intro x hx hcon
      exact h (List.any_eq_true.mpr ⟨x, hx, hcon⟩)
    rw [hnone]
    simp

theorem recGet_objSet_other (o : List (String × String)) (k v k' : String) (h : k' ≠ k) :
    recGet (objSet o k v) k' = recGet o k' := by
  unfold objSet recGet
  by_cases hany : o.any (fun p => p.1 == k) = true
  · rw [if_pos hany, find_mapReplace_other o k v k' h]
  · rw [if_neg hany, List.find?_append]
    have hone : ([(k, v)] : List (String × String)).find? (fun p => p.1 == k') = none := by
      rw [List.find?_eq_none]
      intro x hx hcon
      simp only [List.mem_singleton] at hx
      subst hx
      simp only [beq_iff_eq] at hcon
      exact h hcon.symm
    rw [hone]
    cases o.find? (fun p => p.1 == k') <;> rfl

theorem foldRow_untouched (row : List (Option GvizCell)) (k : String) :
    ∀ (l : List (Nat × String)) (acc : List (String × String)),
      (∀ p ∈ l, p.2 ≠ k) →
      recGet (l.foldl (fun acc p => if p.2 = "" then acc
        else objSet acc p.2 (resolveCell ((row.get? p.1).getD none))) acc) k = recGet acc k := by
  intro l
  induction l with
  | nil => intro acc _; rfl
  | cons q t ih =>
    intro acc hall
    rw [List.foldl_cons]
    rw [ih _ (fun p hp => hall p (List.mem_cons_of_mem q hp))]
    by_cases hq : q.2 = ""
    · rw [if_pos hq]
    · rw [if_neg hq]
      exact recGet_objSet_other acc q.2 _ k (Ne.symm (hall q (List.mem_cons_self q t)))

theorem foldRow_unique (row : List (Option GvizCell)) (i : Nat) (k : String) (hk : k ≠ "") :
    ∀ (l : List (Nat × String)) (acc : List (String × String)),
      (i, k) ∈ l → (∀ p ∈ l, p.2 = k → p = (i, k)) →
      recGet (l.foldl (fun acc p => if p.2 = "" then acc
        else objSet acc p.2 (resolveCell ((row.get? p.1).getD none))) acc) k
        = some (resolveCell ((row.get? i).getD none)) := by
  intro l
  induction l with
  | nil => intro acc hmem _; exact absurd hmem (List.not_mem_nil _)
  | cons q t ih =>
    intro acc hmem huniq
    rw [List.foldl_cons]
    by_cases hmt : (i, k) ∈ t
    · exact ih _ hmt (fun p hp hpk => huniq p (List.mem_cons_of_mem q hp) hpk)
    · have hq : q = (i, k) := by
        rcases List.mem_cons.mp hmem with h | h
        · exact h.symm
        · exact absurd h hmt
      subst hq
      dsimp only
      rw [if_neg hk]
      rw [foldRow_untouched row k t _ ?huntouched]
      · exact recGet_objSet_self acc k _
      case huntouched =>
        intro p hp hpk
        have hpe : p = (i, k) := huniq p (List.mem_cons_of_mem _ hp) hpk
        rw [hpe] at hp
        exact hmt hp

/-- C5: a cell resolves by priority — a present non-empty formatted value
wins, else the raw value coerced to string, else the empty string, with a
null cell mapping to the empty string; on a well-formed table (the target
key appears at exactly one column) every output record carries exactly that
resolved value under the column's key; and the concrete scenario with
columns LOCO No. and Cause of Failure yields the claimed record. -/
theorem claim_C5_cell_resolution_and_scenario :
    ((∀ c : GvizCell, ∀ fv : String, c.f = some fv → fv ≠ "" → resolveCell (some c) = fv) ∧
     (∀ c : GvizCell, (c.f = none ∨ c.f = some "") → resolveCell (some c) = resolveCellV c.v) ∧
     (∀ jv : JsVal, resolveCellV (some jv) = jsValToString jv) ∧
     resolveCellV none = "" ∧ resolveCell none = "") ∧
    (∀ (cols : List (Option String)) (rows : List (List (Option GvizCell)))
        (nk : Bool) (j : Nat) (row : List (Option GvizCell)) (i : Nat) (k : String),
      rows.get? j = some row →
      (cols.map (colKey nk)).get? i = some k → k ≠ "" →
      (∀ i' : Nat, (cols.map (colKey nk)).get? i' = some k → i' = i) →
      ∃ r : List (String × String), (parseGvizTable cols rows nk).get? j = some r ∧
        recGet r k = some (resolveCell ((row.get? i).getD none))) ∧
    parseGvizTable [some "LOCO No.", some "Cause of Failure"]
      [[some ⟨some (.num 22003), none⟩, some ⟨none, some "Traction motor fault"⟩]] true
      = [[("locono", "22003"), ("causeoffailure", "Traction motor fault")]] := by
  refine ⟨⟨?_, ?_, ?_, rfl, rfl⟩, ?_, ?_⟩
  · intro c fv hf hne
    simp [resolveCell, hf, hne]
  · intro c hf
    rcases hf with hf | hf <;> simp [resolveCell, hf]
  · intro jv
    rfl
  · intro cols rows nk j row i k hrow hkey hkne huniq
    refine ⟨buildRow (cols.map (colKey nk)) row, ?_, ?_⟩
    · unfold parseGvizTable
      rw [List.get?_map, hrow]
      rfl
    · unfold buildRow
      refine foldRow_unique row i k hkne _ _ ?_ ?_
      · exact List.mk_mem_enum_iff_get?.mpr hkey
      · rintro ⟨p1, p2⟩ hp hpk
        have hpk' : p2 = k := hpk
        subst hpk'
        have h1 : (cols.map (colKey nk)).get? p1 = some p2 := List.mem_enum_iff_get?.mp hp
        have h2 := huniq p1 h1
        rw [h2]
  · decide

theorem natToDigits_small (n : Nat) (h : n < 10) : natToDigits n = [natDigitChar n] := by
  unfold natToDigits
  cases n with
  | zero => rfl
  | succ m => simp [natToDigitsAux, h]

theorem drop_last2 (A : List Char) (x y : Char) :
    (A ++ [x, y]).drop ((A ++ [x, y]).length - 2) = [x, y] := by
  have h1 : (A ++ [x, y]).length - 2 = A.length := by simp
  rw [h1, List.drop_left]

theorem slice_last2 (n : Nat) (h : 10 ≤ n) :
    jsSliceNeg2 (String.mk (natToDigits n)) =
      String.mk [natDigitChar (n / 10 % 10), natDigitChar (n % 10)] := by
  by_cases h2 : n < 100
  · have hsmall : n / 10 % 10 = n / 10 := Nat.mod_eq_of_lt (by omega)
    rw [natToDigits_step n h, natToDigits_small (n / 10) (by omega), hsmall]
    rfl
  · push_neg at h2
    rw [natToDigits_step n h, natToDigits_step (n / 10) (by omega), List.append_assoc]
    unfold jsSliceNeg2
    congr 1
    exact drop_last2 (natToDigits (n / 10 / 10)) _ _

theorem slice_jsInt (i : Int) (h : 10 ≤ i) :
    jsSliceNeg2 (jsIntToString i) =
      String.mk [natDigitChar (i.toNat / 10 % 10), natDigitChar (i.toNat % 10)] := by
  unfold jsIntToString
  rw [if_neg (by omega)]
  have hna : i.natAbs = i.toNat := by omega
  rw [hna]
  exact slice_last2 i.toNat (by omega)

theorem slice_eq_pad2 (i : Int) (h : 10 ≤ i) :
    jsSliceNeg2 (jsIntToString i) = pad2 (i % 100) := by
  rw [slice_jsInt i h]
  unfold pad2
  have h1 : (i % 100).toNat = i.toNat % 100 := by omega
  have h2 : i.toNat % 100 / 10 = i.toNat / 10 % 10 := by omega
  have h3 : i.toNat % 100 % 10 = i.toNat % 10 := by omega
  rw [h1, h2, h3]

/-- C8: for any date with a year of at least two digits the financial-year
label of getFinancialYear equals the spec formula year dash (year+1) mod 100
when the month is April (index 3) or later, else (year-1) dash year mod 100;
the dates 15-03-24 and 15-04-24 parse into FY 2023-24 and FY 2024-25; and
FY_MONTH_ORDER is a permutation of the twelve month indices starting at
April (3) and ending at March (2). -/
theorem claim_C8_financial_year_and_month_order :
    (∀ d : JsDate, 10 ≤ d.getUTCFullYear →
      getFinancialYear d = specFyLabel d.getUTCFullYear d.getUTCMonth) ∧
    (∃ t : JsDate, parseDateDDMMYY "15-03-24" = some t ∧ getFinancialYear t = "2023-24") ∧
    (∃ t : JsDate, parseDateDDMMYY "15-04-24" = some t ∧ getFinancialYear t = "2024-25") ∧
    FY_MONTH_ORDER.head? = some 3 ∧ FY_MONTH_ORDER.getLast? = some 2 ∧
    FY_MONTH_ORDER.Perm ((List.range 12).map (fun n => (n : Int))) := by
  refine ⟨?_, ⟨⟨19797⟩, by decide, by decide⟩, ⟨⟨19828⟩, by decide, by decide⟩,
    by decide, by decide, by decide⟩
  intro d hy
  unfold getFinancialYear specFyLabel
  by_cases hm : d.getUTCMonth ≥ 3
  · rw [if_pos hm, if_pos hm, slice_eq_pad2 (d.getUTCFullYear + 1) (by omega)]
  · rw [if_neg hm, if_neg hm, slice_eq_pad2 d.getUTCFullYear hy]

theorem claim_C1_witness :
    0 < 12 ∧
    colCount (processSummary [{ datefailed := "15-04-24", locono := "22003" }] "2024-25" "T" "G"
        (fun _ => true) (fun f => f.locono)).totals.monthlyData 0 =
      ((processSummary [{ datefailed := "15-04-24", locono := "22003" }] "2024-25" "T" "G"
        (fun _ => true) (fun f => f.locono)).rows.map (fun row => colCount row.monthlyData 0)).sum :=
  ⟨by decide,
    (claim_C1_summary_row_and_column_sums [{ datefailed := "15-04-24", locono := "22003" }]
      "2024-25" "T" "G" (fun _ => true) (fun f => f.locono)).2 0 (by decide)⟩

theorem claim_C2_witness :
    (SummaryTotals.mk emptyMonthCells ⟨1, [{ locono := "1" }]⟩).monthlyData.length =
      (SummaryTotals.mk emptyMonthCells ⟨1, [{ locono := "2" }]⟩).monthlyData.length ∧
    (sumSummaryTotals (some (SummaryTotals.mk emptyMonthCells ⟨1, [{ locono := "1" }]⟩))
        (some (SummaryTotals.mk emptyMonthCells ⟨1, [{ locono := "2" }]⟩))).total.count =
      (sumSummaryTotals (some (SummaryTotals.mk emptyMonthCells ⟨1, [{ locono := "2" }]⟩))
        (some (SummaryTotals.mk emptyMonthCells ⟨1, [{ locono := "1" }]⟩))).total.count :=
  ⟨by decide,
    (claim_C2_merge_commutes_up_to_order ⟨emptyMonthCells, ⟨1, [{ locono := "1" }]⟩⟩
      ⟨emptyMonthCells, ⟨1, [{ locono := "2" }]⟩⟩ (by decide)).2.2.1⟩

theorem claim_C3_witness :
    (1 : Int) ≤ 15 ∧ (15 : Int) ≤ daysInMonth 2024 4 ∧
    ∃ t : JsDate,
      parseDateDDMMYY (String.mk (['1', '5'] ++ '-' :: (['0', '4'] ++ '-' :: ['2', '4']))) =
        some t ∧ t.getUTCFullYear = 2024 ∧ t.getUTCMonth = 4 - 1 ∧ t.getUTCDate = 15 :=
  ⟨by decide, by decide,
    (claim_C3_date_parse_validation ['1', '5'] ['0', '4'] ['2', '4'] 15 4 2024
      (by decide) (by decide) (by decide) (by decide) (by decide) (by decide)
      (by decide) (by decide) (by decide) (by decide) (by decide)).1 (by decide) (by decide)⟩

theorem claim_C4_witness :
    (jsSplit (fun c => c == '-' || c == '/') "15-04").length ≠ 3 ∧
    parseDateDDMMYY "15-04" = none :=
  ⟨by decide, (claim_C4_parse_failure_modes "15-04").1 (by decide)⟩

theorem claim_C5_witness :
    ([[some (GvizCell.mk (some (.str "A")) none)]] : List (List (Option GvizCell))).get? 0 =
      some [some (GvizCell.mk (some (.str "A")) none)] ∧
    (([some "LOCO No."] : List (Option String)).map (colKey true)).get? 0 = some "locono" ∧
    ("locono" : String) ≠ "" ∧
    ∃ r : List (String × String),
      (parseGvizTable [some "LOCO No."] [[some (GvizCell.mk (some (.str "A")) none)]]
        true).get? 0 = some r ∧
      recGet r "locono" =
        some (resolveCell ((([some (GvizCell.mk (some (.str "A")) none)] :
          List (Option GvizCell)).get? 0).getD none)) :=
  ⟨by decide, by decide, by decide,
    claim_C5_cell_resolution_and_scenario.2.1 [some "LOCO No."]
      [[some (GvizCell.mk (some (.str "A")) none)]] true 0
      [some (GvizCell.mk (some (.str "A")) none)] 0 "locono"
      (by decide) (by decide) (by decide)
      (by
        intro i' h
        cases i' with
        | zero => rfl
        | succ i2 => exact Option.noConfusion h)⟩

theorem claim_C6_witness :
    ([[("foo", "1")]] : List (List (String × String))).head? = some [("foo", "1")] ∧
    findNormalizedLocoNumberKey [("foo", "1")] = none ∧
    getLocoFailuresFor "22" [[("foo", "1")]] = [] :=
  ⟨by decide, by decide,
    claim_C6_alias_priority_and_notfound.2 [[("foo", "1")]] "22" [("foo", "1")]
      (by decide) (by decide)⟩

theorem claim_C7_witness :
    jsToUpperCase "abc" = jsToUpperCase (jsTrim " ABC ") ∧
    locoRecordMatches (some "abc") (jsToUpperCase (jsTrim " ABC ")) = true :=
  ⟨by decide, (claim_C7_match_semantics.1 "abc" " ABC ").mpr (by decide)⟩

theorem claim_C8_witness :
    10 ≤ (JsDate.mk 19828).getUTCFullYear ∧
    getFinancialYear ⟨19828⟩ =
      specFyLabel (JsDate.mk 19828).getUTCFullYear (JsDate.mk 19828).getUTCMonth :=
  ⟨by decide, claim_C8_financial_year_and_month_order.1 ⟨19828⟩ (by decide)⟩

theorem claim_C9_witness :
    ((SummaryTotals.mk emptyMonthCells ⟨0, []⟩).total.count =
      (SummaryTotals.mk emptyMonthCells ⟨0, []⟩).total.items.length) ∧
    ((SummaryTotals.mk emptyMonthCells ⟨1, [{ locono := "1" }]⟩).total.count =
      (SummaryTotals.mk emptyMonthCells ⟨1, [{ locono := "1" }]⟩).total.items.length) ∧
    (sumSummaryTotals (some (SummaryTotals.mk emptyMonthCells ⟨0, []⟩))
        (some (SummaryTotals.mk emptyMonthCells ⟨1, [{ locono := "1" }]⟩))).total.count =
      (sumSummaryTotals (some (SummaryTotals.mk emptyMonthCells ⟨0, []⟩))
        (some (SummaryTotals.mk emptyMonthCells ⟨1, [{ locono := "1" }]⟩))).total.items.length :=
  ⟨by decide, by decide,
    (claim_C9_count_equals_members.2 ⟨emptyMonthCells, ⟨0, []⟩⟩
      ⟨emptyMonthCells, ⟨1, [{ locono := "1" }]⟩⟩
      (by decide) (by decide) (by decide) (by decide)).2⟩

theorem claim_C10_witness :
    (predYLoco = predYLoco ∨ predYLoco = predYOth ∨ predYLoco = predPunc) ∧
    transformWDG4Failure [] ∉
      (processSummary [{ datefailed := "15-04-24", elocosaf := "Y-LOCO" }] "2024-25" "T" "G"
        predYLoco (fun f => f.locono)).totals.total.items :=
  ⟨Or.inl rfl,
    (claim_C10_wdg4_absent_from_elocos_views.2.2 predYLoco (Or.inl rfl)
      [{ datefailed := "15-04-24", elocosaf := "Y-LOCO" }] "2024-25" "T" "G"
      (fun f => f.locono) []).2.2⟩
